import Mathlib

/-!
Verification development for the DTL2025 analysis pipeline.

The definitions below are a shallow embedding, into Lean, of the Python
analysis core of the repository:

* `src/ddl_parser.py`    — the DDL (CREATE TABLE) parser,
* `src/query_analyzer.py` — the query-pattern extractor and the statistics
  aggregator,
* `src/report_creator.py` / `src/dashboard_utils.py` — bottleneck detection,
  materialized-view candidate selection, partitioning candidates, query
  coverage, schema-archetype classification and report assembly,
* `src/analysis_report.py` — the visualization projection.

Python strings are modelled as `List Char` (all inputs of interest are
ASCII); the specific regular expressions used by the source are implemented
as dedicated scanners that follow Python `re` backtracking semantics for
exactly the pattern they model.  Python `dict`s (insertion ordered) are
modelled as association lists, Python `set`s as insertion-deduplicated
lists, numbers as `Nat`/`Rat`.
-/

set_option linter.unusedVariables false
set_option maxRecDepth 8192

namespace DTL

/-! ### Character primitives (Python `str` methods on ASCII text) -/

/-- ASCII lower-casing of one character, modelling Python `str.lower` on
the ASCII inputs handled by the pipeline. -/
def lowerChar (c : Char) : Char :=
  if 65 ≤ c.toNat ∧ c.toNat ≤ 90 then Char.ofNat (c.toNat + 32) else c

/-- ASCII upper-casing of one character, modelling Python `str.upper`. -/
def upperChar (c : Char) : Char :=
  if 97 ≤ c.toNat ∧ c.toNat ≤ 122 then Char.ofNat (c.toNat - 32) else c

/-- Python regex `\s` / `str.strip` whitespace, restricted to ASCII. -/
def isWsChar (c : Char) : Bool :=
  c = ' ' ∨ c = '\t' ∨ c = '\n' ∨ c = '\r' ∨ c = '\x0b' ∨ c = '\x0c'

/-- Python regex `\w` (word character), restricted to ASCII:
`[a-zA-Z0-9_]`.  Used for the `\b` word boundaries of the source regexes. -/
def isWordChar (c : Char) : Bool :=
  (97 ≤ c.toNat ∧ c.toNat ≤ 122) ∨ (65 ≤ c.toNat ∧ c.toNat ≤ 90) ∨
    (48 ≤ c.toNat ∧ c.toNat ≤ 57) ∨ c = '_'

/-- First character of the identifier class `[a-zA-Z_]` used by the
table-reference regex of `QueryAnalyzer._extract_tables`. -/
def isIdentStart (c : Char) : Bool :=
  (97 ≤ c.toNat ∧ c.toNat ≤ 122) ∨ (65 ≤ c.toNat ∧ c.toNat ≤ 90) ∨ c = '_'

/-- Identifier continuation class `[a-zA-Z0-9_.]` of the same regex. -/
def isIdentCont (c : Char) : Bool :=
  isWordChar c ∨ c = '.'

/-- Python `str.lower` on a character list. -/
def lowerStr (s : List Char) : List Char := s.map lowerChar

/-- Python `str.upper` on a character list. -/
def upperStr (s : List Char) : List Char := s.map upperChar

/-- Case-insensitive literal match: consumes `pat` (compared ASCII
case-insensitively) from the front of the input, returning the rest. -/
def matchCI : List Char → List Char → Option (List Char)
  | [], s => some s
  | _ :: _, [] => none
  | p :: ps, c :: cs => if lowerChar c = lowerChar p then matchCI ps cs else none

/-- Regex `\s+`: requires at least one whitespace character and consumes the
maximal whitespace run (the tokens that follow it in the modelled patterns
never match whitespace, so maximal munch is exact). -/
def wsPlus : List Char → Option (List Char)
  | [] => none
  | c :: cs => if isWsChar c then some (cs.dropWhile (fun d => isWsChar d)) else none

/-- Python `str.strip`. -/
def stripStr (s : List Char) : List Char :=
  ((s.dropWhile (fun c => isWsChar c)).reverse.dropWhile (fun c => isWsChar c)).reverse

/-- Python `str.split(sep)` for a one-character separator: keeps empty
fragments, always returns at least one fragment. -/
def splitOnChar (sep : Char) : List Char → List (List Char)
  | [] => [[]]
  | c :: cs =>
    if c = sep then [] :: splitOnChar sep cs
    else
      match splitOnChar sep cs with
      | [] => [[c]]
      | p :: ps => (c :: p) :: ps

/-- Python `str.split()` (no argument): splits on whitespace runs and drops
empty fragments.  Implemented with a fuel argument equal to the input
length. -/
def splitWsFuel : Nat → List Char → List (List Char)
  | 0, _ => []
  | _ + 1, [] => []
  | n + 1, s =>
    let s1 := s.dropWhile (fun c => isWsChar c)
    match s1 with
    | [] => []
    | _ :: _ =>
      let tok := s1.takeWhile (fun c => ¬ isWsChar c)
      tok :: splitWsFuel n (s1.drop tok.length)

/-- Python `str.split()` wrapper. -/
def splitWs (s : List Char) : List (List Char) := splitWsFuel s.length s

/-- Exact prefix test. -/
def isPrefixOfChars : List Char → List Char → Bool
  | [], _ => true
  | _ :: _, [] => false
  | a :: as, b :: bs => a = b ∧ isPrefixOfChars as bs

/-- Python substring containment `needle in hay`. -/
def containsSub (needle : List Char) : List Char → Bool
  | [] => isPrefixOfChars needle []
  | c :: cs => isPrefixOfChars needle (c :: cs) ∨ containsSub needle cs

/-! ### Schema Parser (`src/ddl_parser.py`)

`Column` / `Table` model the dataclasses of `ddl_parser.py`.  The
`nullable`/`constraints`/`indexes` fields always keep their dataclass
defaults on the parsing paths exercised here (the parser never sets them),
so they are omitted from the embedding; no claim inspects them. -/

structure Column where
  name : String
  data_type : String
  deriving Repr, DecidableEq

structure Table where
  catalog : String
  schema : String
  name : String
  columns : List Column
  deriving Repr, DecidableEq

/-- Scanner for `DDLParser._extract_table_name`:
`re.search(r"CREATE TABLE\s+([^\s(]+)", ddl, re.IGNORECASE)`, returning the
captured group of the leftmost match (empty when there is no match). -/
def scanCreateTableName : List Char → Option (List Char)
  | [] => none
  | c :: cs =>
    match matchCI (String.data "create table") (c :: cs) with
    | some rest =>
      match wsPlus rest with
      | some rest2 =>
        let cap := rest2.takeWhile (fun d => ¬ isWsChar d ∧ d ≠ '(')
        if cap.isEmpty then scanCreateTableName cs else some cap
      | none => scanCreateTableName cs
    | none => scanCreateTableName cs

/-- `DDLParser._extract_table_name`: the captured name, or `""` when the
regex does not match. -/
def extractTableName (ddl : List Char) : List Char :=
  (scanCreateTableName ddl).getD []

/-- `DDLParser._parse_full_table_name`: split the full name on `.`;
3 parts → (catalog, schema, name); 2 parts → ("", schema, name); otherwise
("", "", first part) — faithfully keeping the source's behaviour of using
`parts[0]` in the fall-through case. -/
def parseFullTableName (fullName : List Char) : String × String × String :=
  let parts := splitOnChar '.' fullName
  match parts with
  | [p0, p1, p2] => (⟨p0⟩, ⟨p1⟩, ⟨p2⟩)
  | [p0, p1] => ("", ⟨p0⟩, ⟨p1⟩)
  | p0 :: _ => ("", "", ⟨p0⟩)
  | [] => ("", "", "")

/-- Greedy-capture kernel of the column-block regex
`CREATE TABLE[^(]+\((.*)\)\s*WITH` (DOTALL): given the text after the
opening parenthesis, capture up to the last `)` that is followed by
optional whitespace and (case-insensitive) `WITH`; `none` when no such
close exists. -/
def captureToCloseWith : List Char → Option (List Char)
  | [] => none
  | c :: cs =>
    match captureToCloseWith cs with
    | some p => some (c :: p)
    | none =>
      if c = ')' ∧ (matchCI (String.data "with") (cs.dropWhile (fun d => isWsChar d))).isSome
      then some [] else none

/-- Scanner for `DDLParser._extract_columns`'s regex
`re.search(r"CREATE TABLE[^(]+\((.*)\)\s*WITH", ddl, re.IGNORECASE | re.DOTALL)`:
at the leftmost position where `CREATE TABLE` matches, `[^(]+` forces the
opening parenthesis to be the first `(` after it (with a non-empty gap),
and the greedy `(.*)` reaches to the last `)` followed by `\s*WITH`. -/
def scanColumnsBlock : List Char → Option (List Char)
  | [] => none
  | c :: cs =>
    match matchCI (String.data "create table") (c :: cs) with
    | some rest =>
      let gap := rest.takeWhile (fun d => d ≠ '(')
      let afterGap := rest.drop gap.length
      match afterGap, gap.isEmpty with
      | '(' :: inner, false =>
        (match captureToCloseWith inner with
         | some cap => some cap
         | none => scanColumnsBlock cs)
      | _, _ => scanColumnsBlock cs
    | none => scanColumnsBlock cs

/-- `DDLParser._parse_column_definition`: whitespace-split the fragment;
fewer than two tokens → `None`; otherwise name is token 0, type token 1,
with the 3-token merge heuristic for types such as `varchar (255)`. -/
def parseColumnDefinition (colDef : List Char) : Option Column :=
  match splitWs colDef with
  | [] => none
  | [_] => none
  | nm :: ty :: rest =>
    let ty2 :=
      if ty.contains '(' ∧ ¬ ty.contains ')' ∧ rest.length > 0
      then ty ++ rest.headI else ty
    some ⟨⟨nm⟩, ⟨ty2⟩⟩

/-- `DDLParser._split_column_definitions` followed by the per-fragment loop
of `_extract_columns`: split on (paren-depth-unaware) commas, strip, drop
empty fragments, parse each fragment. -/
def extractColumns (ddl : List Char) : List Column :=
  match scanColumnsBlock ddl with
  | none => []
  | some block =>
    let defs := ((splitOnChar ',' block).map stripStr).filter (fun f => ¬ f.isEmpty)
    defs.filterMap (fun d => parseColumnDefinition (stripStr d))

/-- `DDLParser._parse_create_table`.  The body's only failure point is
`sqlparse.parse(ddl)[0]`, which raises (IndexError, caught and turned into
`None`) exactly when `sqlparse` yields no statement, i.e. for the empty
string; every other input produces a `Table` (malformed statements yield
empty name parts or an empty column list rather than failing). -/
def parseCreateTable (ddl : String) : Option Table :=
  if ddl.data.isEmpty then none
  else
    let (cat, sch, nm) := parseFullTableName (extractTableName ddl.data)
    some ⟨cat, sch, nm, extractColumns ddl.data⟩

/-- `DDLParser.parse_ddl_statements`: parse each statement, keep the
successes in order. -/
def parseDDLStatements (ddlList : List String) : List Table :=
  ddlList.filterMap parseCreateTable

/-! ### Query Pattern Extractor (`src/query_analyzer.py`)

`QueryPattern` keeps the fields inspected by the claims; the remaining
fields of the Python dataclass (`joins`, `where_conditions`, `cte_usage`,
`subqueries_count`, `order_by_columns`, `window_functions`) are computed by
independent extractors that no claim inspects and are omitted here. -/

/-- `QueryAnalyzer._get_query_type`: dispatch on the first keyword of
`query.upper().strip()`; `WITH` counts as `SELECT`. -/
def getQueryType (q : List Char) : String :=
  let u := stripStr (upperStr q)
  if isPrefixOfChars (String.data "SELECT") u ∨ isPrefixOfChars (String.data "WITH") u
    then "SELECT"
  else if isPrefixOfChars (String.data "INSERT") u then "INSERT"
  else if isPrefixOfChars (String.data "UPDATE") u then "UPDATE"
  else if isPrefixOfChars (String.data "DELETE") u then "DELETE"
  else "UNKNOWN"

/-- After a matched `FROM`/`JOIN` keyword: `\s+` then the capture
`[a-zA-Z_][a-zA-Z0-9_.]*`; returns the capture and the rest of the input. -/
def identAfterKw (r : List Char) : Option (List Char × List Char) :=
  match wsPlus r with
  | none => none
  | some r2 =>
    match r2 with
    | [] => none
    | d :: ds =>
      if isIdentStart d then
        let tail := ds.takeWhile (fun e => isIdentCont e)
        some (d :: tail, ds.drop tail.length)
      else none

/-- Scanner for `QueryAnalyzer._extract_tables`'s
`re.findall(r"\b(?:FROM|JOIN)\s+([a-zA-Z_][a-zA-Z0-9_.]*)", query,
re.IGNORECASE)`: left-to-right, non-overlapping matches; the boolean
argument tracks whether the previous character was a word character (for
`\b`).  The fuel starts at the input length and dominates the number of
scanning steps. -/
def scanFromJoin : Nat → Bool → List Char → List (List Char)
  | 0, _, _ => []
  | _ + 1, _, [] => []
  | fuel + 1, prevWord, c :: cs =>
    let kwTry : Option (List Char × List Char) :=
      if prevWord then none
      else
        match matchCI (String.data "from") (c :: cs) with
        | some r => identAfterKw r
        | none =>
          match matchCI (String.data "join") (c :: cs) with
          | some r => identAfterKw r
          | none => none
    match kwTry with
    | some (cap, rest) => cap :: scanFromJoin fuel (isWordChar (cap.getLastD ' ')) rest
    | none => scanFromJoin fuel (isWordChar c) cs

/-- Python `set.add`-style insertion: append when absent. -/
def setInsert (l : List String) (x : String) : List String :=
  if x ∈ l then l else l ++ [x]

/-- `QueryAnalyzer._extract_tables`: the referenced-table names, collected
into a set (modelled as an insertion-deduplicated list; every claim uses
it only through membership, length and sums, which are independent of the
iteration order of the Python set). -/
def extractTables (q : String) : List String :=
  ((scanFromJoin q.data.length false q.data).map (fun l => (⟨l⟩ : String))).foldl setInsert []

/-- Case-sensitive literal prefix consumption (the aggregation scan runs on
the upper-cased query with an upper-cased function name). -/
def matchExact : List Char → List Char → Option (List Char)
  | [], s => some s
  | _ :: _, [] => none
  | p :: ps, c :: cs => if c = p then matchExact ps cs else none

/-- One-position test for `\bFUNC\s*\(` (the function name is a word, so
`\b` holds exactly when the previous character is not a word character). -/
def aggHere (funcU : List Char) (s : List Char) : Bool :=
  match matchExact funcU s with
  | some r => (r.dropWhile (fun d => isWsChar d)).headD ' ' = '('
  | none => false

/-- Scanner for `re.search(rf"\b{func.upper()}\s*\(", query_upper)` used by
`QueryAnalyzer._extract_aggregations`. -/
def scanAggPattern (funcU : List Char) : Bool → List Char → Bool
  | _, [] => false
  | prevWord, c :: cs =>
    ((¬ prevWord) ∧ aggHere funcU (c :: cs)) ∨ scanAggPattern funcU (isWordChar c) cs

/-- The aggregate-function vocabulary of `QueryAnalyzer.__init__`, in
source-literal order.  The Python attribute is a `set`, so the order in
which `_extract_aggregations` iterates over it is an unspecified (hash
seed dependent) permutation of this list. -/
def aggregateFunctions : List String :=
  [ "count", "sum", "avg", "min", "max", "stddev", "variance",
    "count_distinct", "percentile", "median"]

/-- `QueryAnalyzer._extract_aggregations`, parameterised by the iteration
order of the aggregate-function set: append `func` whenever
`\bFUNC\s*\(` occurs in the upper-cased query. -/
def extractAggregations (order : List String) (q : String) : List String :=
  order.filter (fun f => scanAggPattern (upperStr f.data) false (upperStr q.data))

/-- Lookahead `(?=\s+(?:HAVING|ORDER|LIMIT|$))` of the GROUP BY regex: at
least one whitespace character, then (case-insensitively) one of the three
keywords or the end of the input.  The keyword alternatives start with
non-whitespace and `$` only holds at the true end, so testing after the
maximal whitespace run is exact. -/
def gbLookahead (s : List Char) : Bool :=
  match s with
  | [] => false
  | c :: cs =>
    isWsChar c ∧
      (let r := cs.dropWhile (fun d => isWsChar d)
       r.isEmpty ∨ (matchCI (String.data "having") r).isSome ∨
         (matchCI (String.data "order") r).isSome ∨
         (matchCI (String.data "limit") r).isSome)

/-- Non-greedy capture growth for `(.+?)`: try capture lengths 1, 2, …
until the lookahead holds after the capture. -/
def gbGrow (acc : List Char) : List Char → Option (List Char)
  | [] => none
  | c :: cs => if gbLookahead cs then some (acc ++ [c]) else gbGrow (acc ++ [c]) cs

/-- Length of the leading whitespace run. -/
def wsRunLen : List Char → Nat
  | [] => 0
  | c :: cs => if isWsChar c then wsRunLen cs + 1 else 0

/-- Backtracking loop for the `\s+` between `BY` and the capture: `\s+` is
tried greedily (longest run first) and shortened on failure, exactly as
Python `re` backtracks; for each choice the non-greedy capture grows from
length 1. -/
def gbWsLoop (t : List Char) : Nat → Option (List Char)
  | 0 => none
  | wsLen + 1 =>
    match gbGrow [] (t.drop (wsLen + 1)) with
    | some cap => some cap
    | none => gbWsLoop t wsLen

/-- Scanner for `QueryAnalyzer._extract_group_by`'s
`re.search(r"\bGROUP\s+BY\s+(.+?)(?=\s+(?:HAVING|ORDER|LIMIT|$))", query,
re.IGNORECASE | re.DOTALL)`: leftmost match wins; when the tail of the
pattern fails at one start position the search resumes one character
further. -/
def scanGroupByClause : Bool → List Char → Option (List Char)
  | _, [] => none
  | prevWord, c :: cs =>
    let attempt : Option (List Char) :=
      if prevWord then none
      else
        match matchCI (String.data "group") (c :: cs) with
        | some r1 =>
          match wsPlus r1 with
          | some r2 =>
            match matchCI (String.data "by") r2 with
            | some r3 => gbWsLoop r3 (wsRunLen r3)
            | none => none
          | none => none
        | none => none
    match attempt with
    | some cap => some cap
    | none => scanGroupByClause (isWordChar c) cs

/-- `QueryAnalyzer._extract_group_by`: the captured clause body split on
commas and stripped (empty fragments are kept, as in the source); `[]`
when the regex finds no match. -/
def extractGroupByCols (q : String) : List String :=
  match scanGroupByClause false q.data with
  | none => []
  | some cap => ((splitOnChar ',' cap).map stripStr).map (fun l => (⟨l⟩ : String))

/-! ### Filter-column extraction over the sqlparse token tree

`QueryAnalyzer._extract_filter_columns` walks the token tree produced by
the external `sqlparse` library.  The tree is modelled by `SqlTok`; the
constructors mirror the sqlparse classes the source dispatches on
(`Comparison`, `Identifier`, `Function`, `Parenthesis`, `Where`), `grp`
stands for any other grouping token (which only gets recursed into via the
`hasattr(token, "tokens")` branch) and `atom` for non-group leaf tokens.
An `Identifier`'s children are plain leaf tokens, so recursing into one
appends nothing; the model therefore carries only its real name. -/

mutual
inductive SqlTok where
  | ident (realName : String) : SqlTok
  | cmp (toks : SqlToks) : SqlTok
  | fn (toks : SqlToks) : SqlTok
  | paren (toks : SqlToks) : SqlTok
  | whereCl (toks : SqlToks) : SqlTok
  | grp (toks : SqlToks) : SqlTok
  | atom : SqlTok
inductive SqlToks where
  | nil : SqlToks
  | cons (t : SqlTok) (ts : SqlToks) : SqlToks
end

/-- The `Comparison` branch of `process_tokens`: the real name of the first
`Identifier` sub-token (the loop breaks after the first). -/
def firstIdentName : SqlToks → List String
  | SqlToks.nil => []
  | SqlToks.cons (SqlTok.ident n) _ => [n]
  | SqlToks.cons _ ts => firstIdentName ts

/-- The ident names directly contained in a token list (used for the
parameters of a `Parenthesis` inside a `Function`). -/
def directIdentNames : SqlToks → List String
  | SqlToks.nil => []
  | SqlToks.cons (SqlTok.ident n) ts => n :: directIdentNames ts
  | SqlToks.cons _ ts => directIdentNames ts

/-- The `Function` branch of `process_tokens`: for every `Parenthesis`
sub-token, every `Identifier` directly inside it. -/
def fnParenIdents : SqlToks → List String
  | SqlToks.nil => []
  | SqlToks.cons (SqlTok.paren ps) ts => directIdentNames ps ++ fnParenIdents ts
  | SqlToks.cons _ ts => fnParenIdents ts

mutual
/-- One step of the recursive walk of `process_tokens`: the `Comparison`
and `Function` branches harvest identifiers, every other grouping token is
recursed into (an `Identifier`'s children are plain leaf tokens, so its
branch contributes nothing), leaves contribute nothing. -/
def filterColsOfTok : SqlTok → List String
  | SqlTok.cmp ts => firstIdentName ts
  | SqlTok.fn ts => fnParenIdents ts
  | SqlTok.paren ts => filterColsOfToks ts
  | SqlTok.whereCl ts => filterColsOfToks ts
  | SqlTok.grp ts => filterColsOfToks ts
  | SqlTok.ident _ => []
  | SqlTok.atom => []
/-- The walk over a token list. -/
def filterColsOfToks : SqlToks → List String
  | SqlToks.nil => []
  | SqlToks.cons t rest => filterColsOfTok t ++ filterColsOfToks rest
end

/-- The first `Where` token among the statement's top-level tokens. -/
def findWhere : SqlToks → Option SqlToks
  | SqlToks.nil => none
  | SqlToks.cons (SqlTok.whereCl ts) _ => some ts
  | SqlToks.cons _ rest => findWhere rest

/-- Python `list(set(xs))` modelled as first-occurrence deduplication (the
set's iteration order is unspecified; claims only use membership). -/
def dedupFirst (l : List String) : List String := l.foldl setInsert []

/-- `QueryAnalyzer._extract_filter_columns`: locate the WHERE clause, walk
it, deduplicate. -/
def extractFilterColumns (stmt : SqlToks) : List String :=
  match findWhere stmt with
  | none => []
  | some ts => dedupFirst (filterColsOfToks ts)

/-! ### Query records and patterns -/

/-- One inbound query record (`{queryid, query, runquantity, executiontime}`
per `src/models.py`); `executiontime` is modelled as a rational. -/
structure QueryRecord where
  queryid : String
  query : String
  runquantity : Nat
  executiontime : Rat

/-- The claim-relevant fields of the `QueryPattern` dataclass. -/
structure QueryPattern where
  query_id : String
  query_type : String
  tables_used : List String
  aggregations : List String
  filter_columns : List String
  group_by_columns : List String
  run_quantity : Nat
  execution_time : Rat
  deriving Repr, DecidableEq

/-- `QueryAnalyzer._analyze_single_query`, parameterised by the iteration
order of the aggregate-function set and by the sqlparse token tree of the
query (the tree is only consumed by the filter-column extractor).  The
body's failure point is `sqlparse.parse(query_text)[0]`, which raises only
when `sqlparse` yields no statement, i.e. for an empty query text. -/
def analyzeSingleQuery (aggOrder : List String) (tree : SqlToks)
    (qd : QueryRecord) : Option QueryPattern :=
  if qd.query.data.isEmpty then none
  else
    some
      { query_id := qd.queryid
        query_type := getQueryType qd.query.data
        tables_used := extractTables qd.query
        aggregations := extractAggregations aggOrder qd.query
        filter_columns := extractFilterColumns tree
        group_by_columns := extractGroupByCols qd.query
        run_quantity := qd.runquantity
        execution_time := qd.executiontime }

/-- `QueryAnalyzer.analyze_queries`: analyze each record (paired with its
sqlparse tree), dropping the `None` results. -/
def analyzeQueries (aggOrder : List String)
    (qs : List (QueryRecord × SqlToks)) : List QueryPattern :=
  qs.filterMap (fun p => analyzeSingleQuery aggOrder p.2 p.1)

/-! ### Statistics Aggregator (`QueryAnalyzer.get_query_statistics`) -/

/-- Insertion-ordered dict accumulation `m[k] += v` (a missing key starts
at the `defaultdict` zero). -/
def bumpKey (m : List (String × Nat)) (k : String) (v : Nat) : List (String × Nat) :=
  match m with
  | [] => [(k, v)]
  | (k1, v1) :: rest => if k1 = k then (k1, v1 + v) :: rest else (k1, v1) :: bumpKey rest k v

/-- The `most_used_tables` histogram of `get_query_statistics`:
`stats["most_used_tables"][table] += pattern.run_quantity` for every table
of every pattern's referenced-table set. -/
def mostUsedTables (ps : List QueryPattern) : List (String × Nat) :=
  ps.foldl (fun m p => p.tables_used.foldl (fun m2 t => bumpKey m2 t p.run_quantity) m) []

/-- Sum of a histogram's values (`sum(table_usage.values())`). -/
def sumValues (m : List (String × Nat)) : Nat := (m.map Prod.snd).sum

/-! ### Insight Synthesizer (`src/report_creator.py`) -/

/-- Python `sorted(l, key=key, reverse=True)`: a stable descending sort.
`List.insertionSort` with the relation `key b ≤ key a` places an
earlier-listed element before a later one exactly when its key is at least
as large, which is stable on ties, as CPython's sort is. -/
def sortDescBy {α β : Type} [LinearOrder β] (key : α → β) (l : List α) : List α :=
  l.insertionSort (fun a b => key b ≤ key a)

/-- Code-point lexicographic string comparison, i.e. Python `<=` on
strings (written directly on the character lists so that it evaluates). -/
def listLeChars : List Char → List Char → Bool
  | [], _ => true
  | _ :: _, [] => false
  | a :: as, b :: bs => if a = b then listLeChars as bs else decide (a < b)

/-- Python `sorted(l)` on strings (stable ascending, code-point order). -/
def sortStrings (l : List String) : List String :=
  l.insertionSort (fun a b => listLeChars a.data b.data = true)

/-- One detail row of a bottleneck entry.  `score` is the product
`execution_time * run_quantity`, called `impact_score` in the slow-query
details and `total_time` in the high-volume details. -/
structure BottleneckDetail where
  query_id : String
  execution_time : Rat
  run_quantity : Nat
  score : Rat
  deriving Repr, DecidableEq

/-- One entry of the bottleneck list.  `btype` models the `type` key;
`total_executions` is only present on the high-volume entry. -/
structure Bottleneck where
  btype : String
  severity : String
  count : Nat
  total_executions : Option Nat
  details : List BottleneckDetail
  deriving Repr, DecidableEq

/-- Build one detail row from a pattern. -/
def mkDetail (q : QueryPattern) : BottleneckDetail :=
  ⟨q.query_id, q.execution_time, q.run_quantity,
    q.execution_time * (q.run_quantity : Rat)⟩

/-- The slow-query bucket entry of `_identify_bottlenecks`: severity high,
details sorted descending by `execution_time * run_quantity`. -/
def slowBucket (ps : List QueryPattern) : Bottleneck :=
  let slow := ps.filter (fun q => 30 < q.execution_time)
  ⟨ "slow_queries", "high", slow.length, none,
    (sortDescBy (fun q => q.execution_time * (q.run_quantity : Rat)) slow).map mkDetail⟩

/-- The high-volume bucket entry of `_identify_bottlenecks`: severity
medium, `total_executions` the sum of the bucket's run quantities, details
sorted descending by `run_quantity` and truncated to 5. -/
def hvBucket (ps : List QueryPattern) : Bottleneck :=
  let hv := ps.filter (fun q => 1000 < q.run_quantity)
  ⟨ "high_volume_queries", "medium", hv.length,
    some ((hv.map (fun q => q.run_quantity)).sum),
    ((sortDescBy (fun q => q.run_quantity) hv).map mkDetail).take 5⟩

/-- `OptimizationAnalyzer._identify_bottlenecks`: the slow bucket
(`execution_time > 30`) followed by the high-volume bucket
(`run_quantity > 1000`); a bucket is emitted only when non-empty. -/
def identifyBottlenecks (ps : List QueryPattern) : List Bottleneck :=
  (if (ps.filter (fun q => 30 < q.execution_time)).isEmpty then [] else [slowBucket ps]) ++
    (if (ps.filter (fun q => 1000 < q.run_quantity)).isEmpty then [] else [hvBucket ps])

/-- The `critical_issues` field of `create_optimization_report`'s executive
summary: `len([b for b in bottlenecks if b.get("severity") == "high"])`. -/
def criticalIssues (ps : List QueryPattern) : Nat :=
  ((identifyBottlenecks ps).filter (fun b => b.severity = "high")).length

/-- The `query_volume_per_day` field of the executive summary: the sum of
`total_executions` over the high-volume bottleneck entries. -/
def queryVolumePerDay (ps : List QueryPattern) : Nat :=
  (((identifyBottlenecks ps).filter (fun b => b.btype = "high_volume_queries")).map
    (fun b => b.total_executions.getD 0)).sum

/-- One materialized-view candidate of
`OptimizationAnalyzer._identify_mv_candidates`. -/
structure MVCandidate where
  aggregations : List String
  query_count : Nat
  total_executions : Nat
  avg_execution_time : Rat
  potential_savings : String
  deriving Repr, DecidableEq

/-- Append `p` to the group keyed `key`, creating the group at the end when
absent (Python dict insertion order). -/
def addToGroup (gs : List (List String × List QueryPattern)) (key : List String)
    (p : QueryPattern) : List (List String × List QueryPattern) :=
  match gs with
  | [] => [(key, [p])]
  | (k, l) :: rest =>
    if k = key then (k, l ++ [p]) :: rest else (k, l) :: addToGroup rest key p

/-- The `aggregation_groups` dict of `_identify_mv_candidates`: patterns
with `run_quantity > 500`, grouped by `tuple(sorted(aggregations))`. -/
def groupPatterns (ps : List QueryPattern) : List (List String × List QueryPattern) :=
  (ps.filter (fun p => 500 < p.run_quantity)).foldl
    (fun gs p => addToGroup gs (sortStrings p.aggregations) p) []

/-- One candidate from one qualifying group. -/
def mkMVCandidate (g : List String × List QueryPattern) : MVCandidate :=
  let total := (g.2.map (fun p => p.run_quantity)).sum
  ⟨g.1, g.2.length, total,
    (g.2.map (fun p => p.execution_time)).sum / (g.2.length : Rat),
    if 5000 < total then "high" else "medium"⟩

/-- `OptimizationAnalyzer._identify_mv_candidates`: qualifying groups (at
least two member patterns) become candidates, ranked descending by
`total_executions`, top 3 retained. -/
def identifyMVCandidates (ps : List QueryPattern) : List MVCandidate :=
  let cands := ((groupPatterns ps).filter (fun g => 2 ≤ g.2.length)).map mkMVCandidate
  (sortDescBy (fun c => c.total_executions) cands).take 3

/-- Schema-archetype classification, shared verbatim by
`QueryAnalyzer.detect_schema_archetype` and
`OptimizationAnalyzer.create_concise_report_for_agent`; the comparison
`total_joins > total_queries / 2` is Python real division, modelled in
`Rat`. -/
def detectSchemaArchetype (numTables totalJoins totalQueries : Nat) : String :=
  if numTables = 1 then "single_big_table"
  else if 1 < numTables ∧ (totalQueries : Rat) / 2 < (totalJoins : Rat) then
    "normalized_multitable"
  else if 1 < numTables then "denormalized_multitable"
  else "unknown"

/-! ### Partitioning candidates (`_identify_partitioning_candidates`,
`src/dashboard_utils.py`; `src/report_creator.py` carries an equivalent
temporal branch) -/

def dateKeywords : List String :=
  [ "date", "time", "year", "month", "quarter", "day", "timestamp",
    "created", "updated", "modified"]

def categoryKeywords : List String :=
  [ "type", "category", "status", "region", "country", "state"]

/-- One flagged column. -/
structure PartCandidate where
  column : String
  ctype : String
  reason : String
  deriving Repr, DecidableEq

/-- Per-table partitioning-candidate report entry. -/
structure TablePartCandidates where
  table : String
  candidates : List PartCandidate
  deriving Repr, DecidableEq

/-- The temporal test: a date keyword occurs in the lower-cased column name,
or `date`/`time`/`timestamp` occurs in the lower-cased declared type. -/
def isTemporalCol (c : Column) : Bool :=
  dateKeywords.any (fun kw => containsSub kw.data (lowerStr c.name.data)) ∨
    ([ "date", "time", "timestamp"] : List String).any
      (fun dt => containsSub dt.data (lowerStr c.data_type.data))

/-- The categorical test (the `elif` branch). -/
def isCategoricalCol (c : Column) : Bool :=
  categoryKeywords.any (fun kw => containsSub kw.data (lowerStr c.name.data))

/-- The flagged columns of one table, in column order. -/
def partCandidatesOfTable (t : Table) : List PartCandidate :=
  t.columns.filterMap (fun c =>
    if isTemporalCol c then
      some ⟨c.name, c.data_type, "Temporal column suitable for time-based partitioning"⟩
    else if isCategoricalCol c then
      some ⟨c.name, c.data_type, "Categorical column suitable for list partitioning"⟩
    else none)

/-- `_identify_partitioning_candidates`: tables with at least one flagged
column, labelled `schema.name` when the schema part is non-empty. -/
def identifyPartitioningCandidates (tables : List Table) : List TablePartCandidates :=
  tables.filterMap (fun t =>
    let cs := partCandidatesOfTable t
    if cs.isEmpty then none
    else some ⟨if t.schema ≠ "" then t.schema ++ "." ++ t.name else t.name, cs⟩)

/-! ### Query coverage (`_analyze_query_coverage`, identical in
`src/report_creator.py` and `src/dashboard_utils.py`) -/

/-- The local `normalize`: `re.sub(r'["`]', "", s).strip().lower()` —
double quotes and backticks (codepoint 96) removed, stripped, lower-cased. -/
def normalizeRef (s : List Char) : List Char :=
  lowerStr (stripStr (s.filter (fun c => c.toNat ≠ 34 ∧ c.toNat ≠ 96)))

/-- Insertion-ordered dict assignment `m[k] = v`. -/
def dictSet (m : List (String × String)) (k v : String) : List (String × String) :=
  match m with
  | [] => [(k, v)]
  | (k1, v1) :: rest => if k1 = k then (k1, v) :: rest else (k1, v1) :: dictSet rest k v

/-- Dict lookup. -/
def dictFind (m : List (String × String)) (k : String) : Option String :=
  (m.find? (fun kv => kv.1 == k)).map Prod.snd

/-- The `known_keys` index: per table, the normalized `name` and
`schema.name` forms map to the canonical key (`schema.name` when the schema
part is non-empty).  The source also tries a `db.schema.table` key from
`getattr(t, "database", "")`, but the `Table` dataclass has no `database`
attribute, so that branch never fires and is omitted here. -/
def knownKeysOfTables (tables : List Table) : List (String × String) :=
  tables.foldl (fun m t =>
    let tName : String := ⟨normalizeRef t.name.data⟩
    let tSchema : String := ⟨normalizeRef t.schema.data⟩
    let canon := if tSchema ≠ "" then tSchema ++ "." ++ tName else tName
    let m1 := if tName ≠ "" then dictSet m tName canon else m
    if tSchema ≠ "" ∧ tName ≠ "" then dictSet m1 (tSchema ++ "." ++ tName) canon else m1) []

/-- `usage = {canon: 0 for canon in set(known_keys.values())}`. -/
def initUsage (kk : List (String × String)) : List (String × Nat) :=
  (dedupFirst (kk.map Prod.snd)).map (fun c => (c, 0))

/-- Character class `[a-zA-Z0-9_\."]` of the reference regex. -/
def isRefChar (c : Char) : Bool :=
  isWordChar c ∨ c = '.' ∨ c.toNat = 34

/-- After a matched `from`/`join` keyword: `\s+` then a non-empty capture
of reference characters. -/
def refAfterKw (r : List Char) : Option (List Char × List Char) :=
  match wsPlus r with
  | none => none
  | some r2 =>
    match r2 with
    | [] => none
    | d :: ds =>
      if isRefChar d then
        let tail := ds.takeWhile (fun e => isRefChar e)
        some (d :: tail, ds.drop tail.length)
      else none

/-- Scanner for `re.compile(r'\b(from|join)\s+([a-zA-Z0-9_\."]+)',
re.IGNORECASE).findall(text)`, keeping the second capture of each
non-overlapping match. -/
def scanRefs : Nat → Bool → List Char → List (List Char)
  | 0, _, _ => []
  | _ + 1, _, [] => []
  | fuel + 1, prevWord, c :: cs =>
    let kwTry : Option (List Char × List Char) :=
      if prevWord then none
      else
        match matchCI (String.data "from") (c :: cs) with
        | some r => refAfterKw r
        | none =>
          match matchCI (String.data "join") (c :: cs) with
          | some r => refAfterKw r
          | none => none
    match kwTry with
    | some (cap, rest) => cap :: scanRefs fuel (isWordChar (cap.getLastD ' ')) rest
    | none => scanRefs fuel (isWordChar c) cs

/-- Join name parts with `.` separators. -/
def joinDots : List (List Char) → List Char
  | [] => []
  | [p] => p
  | p :: ps => p ++ '.' :: joinDots ps

/-- The local `all_forms`: from the normalized reference, the last part,
the last two parts and the last three parts (when present), deduplicated
preserving order (`list(dict.fromkeys(forms))`). -/
def allForms (ref : List Char) : List String :=
  let parts := (splitOnChar '.' (normalizeRef ref)).filter (fun p => ¬ p.isEmpty)
  let n := parts.length
  let fs : List String :=
    (if 1 ≤ n then [⟨joinDots (parts.drop (n - 1))⟩] else []) ++
      (if 2 ≤ n then [⟨joinDots (parts.drop (n - 2))⟩] else []) ++
      (if 3 ≤ n then [⟨joinDots (parts.drop (n - 3))⟩] else [])
  dedupFirst fs

/-- The resolution loop: the first form found in `known_keys` yields its
canonical key. -/
def firstFormMatch (forms : List String) (kk : List (String × String)) : Option String :=
  match forms with
  | [] => none
  | f :: fs =>
    match dictFind kk f with
    | some canon => some canon
    | none => firstFormMatch fs kk

/-- Accumulate one reference: on resolution, bump the canonical bucket; on
failure, bump the partial key `forms[1] if len(forms) >= 2 else forms[0]`
(creating it via `setdefault`); an empty form list is skipped. -/
def applyRef (kk : List (String × String)) (usage : List (String × Nat)) (runq : Nat)
    (ref : List Char) : List (String × Nat) :=
  match firstFormMatch (allForms ref) kk with
  | some canon => bumpKey usage canon runq
  | none =>
    match allForms ref with
    | [] => usage
    | [f0] => bumpKey usage f0 runq
    | _ :: f1 :: _ => bumpKey usage f1 runq

/-- The `usage` accumulation of `_analyze_query_coverage` over a non-empty
query batch, given as `(query text, runquantity)` pairs (the returned
report re-sorts this map descending by value, which permutes entries but
changes no bucket).  The empty-batch early return maps every raw
lower-cased table name to zero. -/
def coverageUsage (tables : List Table) (queries : List (String × Nat)) :
    List (String × Nat) :=
  if queries.isEmpty then
    (dedupFirst (tables.map (fun t => (⟨lowerStr t.name.data⟩ : String)))).map
      (fun nm => (nm, 0))
  else
    let kk := knownKeysOfTables tables
    queries.foldl (fun usage q =>
      if q.1.data.isEmpty then usage
      else
        (scanRefs q.1.data.length false q.1.data).foldl
          (fun u ref => applyRef kk u q.2 ref) usage)
      (initUsage kk)

/-! ### Visualization projection (`create_analysis_report`,
`src/analysis_report.py`)

The stored report is a nested dict; presence or absence of each key read
by the projection is modelled with `Option` fields.  `raw_report[k]`
(bracket indexing, raising `KeyError`) is modelled by `req`, producing
`Except.error k`; `raw_report.get(k, default)` by `Option.getD`.  The
`Except` chain evaluates the accesses in the order the Python dict literal
does, so the error value is the first missing directly-indexed key. -/

/-- Bracket indexing: `KeyError` (named by the key) when absent. -/
def req {α : Type} (o : Option α) (k : String) : Except String α :=
  match o with
  | some v => Except.ok v
  | none => Except.error k

/-- One table row of the schema overview (all fields are read with
defaulting `.get`, hence total). -/
structure OverviewTable where
  name : String
  column_count : Nat
  estimated_rows : Nat
  has_primary_key : Bool
  deriving Repr, DecidableEq

/-- The `index_coverage` sub-dict (passed through, or defaulted whole). -/
structure IndexCoverage where
  indexed_tables : Nat
  total_indexes : Nat
  coverage_percent : Rat
  recommendations : String
  deriving Repr, DecidableEq

/-- The `schema_overview` value stored by the processing step. -/
structure SchemaOverview where
  tables : List OverviewTable
  index_coverage : IndexCoverage
  deriving Repr, DecidableEq

/-- The keys read under `executive_summary` (all bracket-indexed). -/
structure ExecSummary where
  database_size : Option Rat
  total_rows : Option String
  query_volume_per_day : Option Nat
  critical_issues : Option Nat
  optimization_potential : Option String

/-- The keys read under `database_profile`. -/
structure DBProfile where
  column_distribution : Option (List (String × Nat))

/-- One stored materialized-view candidate (bracket-indexed fields). -/
structure MVEntry where
  aggregations : Option (List String)
  total_executions : Option Nat
  potential_savings : Option String
  query_count : Option Nat

/-- The keys read under `query_patterns`. -/
structure QPatternsDict where
  top_aggregations : Option (List (String × Nat))
  join_frequency : Option (List (String × Nat))
  materialized_view_candidates : Option (List MVEntry)

/-- One stored recommendation (bracket-indexed fields; `rtype` models the
`type` key). -/
structure RecEntry where
  rtype : Option String
  priority : Option String
  effort : Option String
  expected_improvement : Option String
  description : Option String

/-- The keys read under `schema_insights` (`tables` and `index_coverage`
via defaulting `.get`, `total_columns` bracket-indexed). -/
structure SchemaInsightsDict where
  tables : Option (List OverviewTable)
  index_coverage : Option IndexCoverage
  total_columns : Option Nat

/-- The stored analysis report, with one `Option` field per key the
projection reads. -/
structure RawReport where
  performance_bottlenecks : Option (List Bottleneck)
  schema_overview : Option SchemaOverview
  schema_insights : Option SchemaInsightsDict
  agent_input : Option String
  executive_summary : Option ExecSummary
  database_profile : Option DBProfile
  query_patterns : Option QPatternsDict
  recommendations : Option (List RecEntry)
  implementation_priority : Option (List String)

/-- One row of the `top_queries` chart (`.get`-accessed, hence total). -/
structure VizQueryEntry where
  qid : String
  executions : Nat
  avg_time : Rat
  deriving Repr, DecidableEq

/-- One row of the priority matrix. -/
structure VizRec where
  name : String
  priority : String
  effort : String
  improvement : String
  description : String
  deriving Repr, DecidableEq

/-- One row of the materialized-view table. -/
structure VizMV where
  aggregations : List String
  executions : Nat
  savings : String
  queries : Nat
  deriving Repr, DecidableEq

/-- The chart-ready projection value (field per series; the cosmetic
string formatting of the source — f-strings, `title()`, thousands
separators — is not modelled, the raw values are carried instead). -/
structure VizData where
  schema_overview : SchemaOverview
  database_size : Rat
  total_rows : String
  query_volume_per_day : Nat
  critical_issues : Nat
  critical_alert : Bool
  optimization_potential : String
  column_distribution_labels : List String
  column_distribution_data : List Nat
  total_columns : Nat
  top_queries : List VizQueryEntry
  total_executions : Nat
  aggregation_labels : List String
  aggregation_data : List Nat
  join_labels : List String
  join_data : List Nat
  priority_matrix : List VizRec
  implementation_order : List String
  materialized_views : List VizMV
  agent_input : String
  deriving Repr, DecidableEq

/-- `get_bottleneck_by_type`: first bottleneck of the given type among
`raw_report.get("performance_bottlenecks", [])`. -/
def getBottleneckByType (r : RawReport) (ty : String) : Option Bottleneck :=
  (r.performance_bottlenecks.getD []).find? (fun b => b.btype == ty)

/-- `get_top_queries`: the first five high-volume details, else the first
five slow details, else `[]`; every field is read with a defaulting
`.get`, and the id is truncated to eight characters plus an ellipsis. -/
def getTopQueries (r : RawReport) : List VizQueryEntry :=
  let row : BottleneckDetail → VizQueryEntry := fun d =>
    ⟨(⟨d.query_id.data.take 8⟩ : String) ++ "...", d.run_quantity, d.execution_time⟩
  match getBottleneckByType r "high_volume_queries" with
  | some hv => (hv.details.take 5).map row
  | none =>
    match getBottleneckByType r "slow_queries" with
    | some sq => (sq.details.take 5).map row
    | none => []

/-- `get_total_executions`: defaulting access on the high-volume entry. -/
def getTotalExecutions (r : RawReport) : Nat :=
  match getBottleneckByType r "high_volume_queries" with
  | some hv => hv.total_executions.getD 0
  | none => 0

/-- The defaulted `index_coverage` used by the legacy fallback. -/
def defaultIndexCoverage : IndexCoverage :=
  ⟨0, 0, 0, "No index data available"⟩

/-- The `schema_overview` selection: the stored value when present and
non-empty, otherwise a rebuild from `schema_insights` in which every
access defaults (`.get`). -/
def schemaOverviewOf (r : RawReport) : SchemaOverview :=
  match r.schema_overview with
  | some so => so
  | none =>
    let si := r.schema_insights
    ⟨(si.bind (fun s => s.tables)).getD [],
      (si.bind (fun s => s.index_coverage)).getD defaultIndexCoverage⟩

/-- Effectful map for the list comprehensions of the projection: the first
`KeyError` wins, as in Python. -/
def mapE {α β : Type} (f : α → Except String β) : List α → Except String (List β)
  | [] => Except.ok []
  | x :: xs => do
    let y ← f x
    let ys ← mapE f xs
    pure (y :: ys)

/-- One priority-matrix row: every field of the stored recommendation is
bracket-indexed. -/
def vizRecOf (rec : RecEntry) : Except String VizRec := do
  let nm ← req rec.rtype "type"
  let pr ← req rec.priority "priority"
  let ef ← req rec.effort "effort"
  let im ← req rec.expected_improvement "expected_improvement"
  let de ← req rec.description "description"
  pure ⟨nm, pr, ef, im, de⟩

/-- One materialized-view row: every field of the stored candidate is
bracket-indexed. -/
def vizMVOf (mv : MVEntry) : Except String VizMV := do
  let ag ← req mv.aggregations "aggregations"
  let te ← req mv.total_executions "total_executions"
  let sv ← req mv.potential_savings "potential_savings"
  let qc ← req mv.query_count "query_count"
  pure ⟨ag, te, sv, qc⟩

/-- `create_analysis_report` on a stored report: the `Except` value is
`ok` exactly when every bracket-indexed key is present, and otherwise
names the first missing key, mirroring the `KeyError` the source raises. -/
def createAnalysisReport (r : RawReport) : Except String VizData := do
  let so := schemaOverviewOf r
  let es ← req r.executive_summary "executive_summary"
  let dbSize ← req es.database_size "database_size"
  let totalRows ← req es.total_rows "total_rows"
  let qvpd ← req es.query_volume_per_day "query_volume_per_day"
  let crit ← req es.critical_issues "critical_issues"
  let optPot ← req es.optimization_potential "optimization_potential"
  let dbp ← req r.database_profile "database_profile"
  let colDist ← req dbp.column_distribution "column_distribution"
  let si ← req r.schema_insights "schema_insights"
  let totalCols ← req si.total_columns "total_columns"
  let qp ← req r.query_patterns "query_patterns"
  let topAggs ← req qp.top_aggregations "top_aggregations"
  let joinFreq ← req qp.join_frequency "join_frequency"
  let recs ← req r.recommendations "recommendations"
  let matrix ← mapE vizRecOf recs
  let implPrio ← req r.implementation_priority "implementation_priority"
  let mvsStored ← req qp.materialized_view_candidates
    "materialized_view_candidates"
  let mvs ← mapE vizMVOf (mvsStored.take 3)
  pure
    { schema_overview := so
      database_size := dbSize
      total_rows := totalRows
      query_volume_per_day := qvpd
      critical_issues := crit
      critical_alert := 0 < crit
      optimization_potential := optPot
      column_distribution_labels := colDist.map Prod.fst
      column_distribution_data := colDist.map Prod.snd
      total_columns := totalCols
      top_queries := getTopQueries r
      total_executions := getTotalExecutions r
      aggregation_labels := topAggs.map Prod.fst
      aggregation_data := topAggs.map Prod.snd
      join_labels := joinFreq.map Prod.fst
      join_data := joinFreq.map Prod.snd
      priority_matrix := matrix
      implementation_order := implPrio
      materialized_views := mvs
      agent_input := r.agent_input.getD ("") }

/-! ### Concrete inputs of the spec §8 end-to-end scenario (claim C1) -/

/-- The DDL statement of the scenario. -/
def c1DDL : String :=
  "CREATE TABLE cat.pub.flights (flightdate date, airline varchar, distance double) WITH (format=\x27PARQUET\x27);"

/-- The query text of the scenario (exactly as in the spec: the GROUP BY
clause ends the string, with no trailing whitespace). -/
def c1Query : String :=
  "SELECT airline, COUNT(*) FROM cat.pub.flights WHERE flightdate > DATE \x272020-01-01\x27 GROUP BY airline"

/-- The query record of the scenario. -/
def c1Record : QueryRecord := ⟨ "q1", c1Query, 5000, 12⟩

/-- List-to-`SqlToks` conversion, for readable tree literals. -/
def toks : List SqlTok → SqlToks
  | [] => SqlToks.nil
  | t :: ts => SqlToks.cons t (toks ts)

/-- The WHERE clause of `c1Query` as tokenized by the external `sqlparse`
library: the `WHERE` keyword and whitespace leaves, then one `Comparison`
grouping `flightdate > DATE '2020-01-01'` whose first `Identifier` is
`flightdate` (the right-hand side `DATE '2020-01-01'` is a typed-literal
group). -/
def c1WhereToks : SqlToks :=
  toks
    [SqlTok.atom, SqlTok.atom,
      SqlTok.cmp (toks
        [SqlTok.ident "flightdate", SqlTok.atom, SqlTok.atom,
          SqlTok.grp SqlToks.nil])]

/-- The top-level token list of `sqlparse.parse(c1Query)[0]`: keyword and
whitespace leaves, the grouped SELECT list, the table identifier, the
`Where` group, then the GROUP BY tail.  Only the `Where` group is consumed
by the filter-column extractor. -/
def c1Tree : SqlToks :=
  toks
    [SqlTok.atom, SqlTok.atom, SqlTok.grp SqlToks.nil, SqlTok.atom, SqlTok.atom,
      SqlTok.atom, SqlTok.ident "cat.pub.flights", SqlTok.atom,
      SqlTok.whereCl c1WhereToks, SqlTok.atom, SqlTok.atom, SqlTok.atom]

/-- The table the scenario's DDL parses to. -/
def c1Table : Table :=
  ⟨ "cat", "pub", "flights",
    [⟨ "flightdate", "date"⟩, ⟨ "airline", "varchar"⟩, ⟨ "distance", "double"⟩]⟩

/-- The pattern the scenario's query analyzes to (note the empty group-by
list: the GROUP BY regex's lookahead requires a whitespace character after
the clause body, and the clause ends the query string). -/
def c1Pattern : QueryPattern :=
  ⟨ "q1", "SELECT", [ "cat.pub.flights"], [ "count"], [ "flightdate"], [],
    5000, 12⟩

/-! ## Claim theorems -/

/-- C1 (amended): on the spec §8 scenario — and for every iteration order
of the aggregate-function set — the pipeline parses exactly one table with
three columns; the single query pattern has type SELECT, referenced-table
set `{cat.pub.flights}`, aggregations `[count]`, filter columns
`[flightdate]` and (amended) an *empty* group-by list; `flightdate` is
flagged as a partitioning candidate; the archetype is `single_big_table`
whatever the join count; and the bottleneck list is exactly one
`high_volume_queries` entry with `total_executions = 5000`. -/
theorem c1_end_to_end (aggOrder : List String)
    (h : aggOrder.Perm aggregateFunctions) :
    parseDDLStatements [c1DDL] = [c1Table] ∧
    analyzeQueries aggOrder [(c1Record, c1Tree)] = [c1Pattern] ∧
    identifyPartitioningCandidates (parseDDLStatements [c1DDL]) =
      [⟨ "pub.flights",
        [⟨ "flightdate", "date",
          "Temporal column suitable for time-based partitioning"⟩]⟩] ∧
    (∀ totalJoins, detectSchemaArchetype (parseDDLStatements [c1DDL]).length totalJoins 1 =
      "single_big_table") ∧
    identifyBottlenecks (analyzeQueries aggOrder [(c1Record, c1Tree)]) =
      [⟨ "high_volume_queries", "medium", 1, some 5000,
        [⟨ "q1", 12, 5000, 60000⟩]⟩] := by
  have hagg : extractAggregations aggOrder c1Query = [ "count"] := by
    have hp : (extractAggregations aggOrder c1Query).Perm
        (extractAggregations aggregateFunctions c1Query) := by
      unfold extractAggregations
      exact h.filter _
    have he : extractAggregations aggregateFunctions c1Query = [ "count"] := by decide
    rw [he] at hp
    exact List.perm_singleton.mp hp
  have hq : analyzeSingleQuery aggOrder c1Tree c1Record = some c1Pattern := by
    unfold analyzeSingleQuery
    rw [if_neg (by decide)]
    refine congrArg some ?_
    rw [QueryPattern.mk.injEq]
    exact ⟨by decide, by decide, by decide, hagg, by decide, by decide, by decide, by decide⟩
  have hqs : analyzeQueries aggOrder [(c1Record, c1Tree)] = [c1Pattern] := by
    simp [analyzeQueries, List.filterMap_cons, hq]
  refine ⟨by decide, hqs, by decide, ?_, ?_⟩
  · intro j
    have hlen : (parseDDLStatements [c1DDL]).length = 1 := by decide
    rw [hlen]
    rfl
  · rw [hqs]
    norm_num [identifyBottlenecks, slowBucket, hvBucket, c1Pattern, sortDescBy, mkDetail,
      List.insertionSort, List.orderedInsert, List.filter, BottleneckDetail.mk.injEq,
      Bottleneck.mk.injEq]

/-- C1, the part the code refutes: on the exact scenario query (which ends
at the GROUP BY clause with no trailing whitespace) the extracted group-by
column list is empty, not `[airline]`. -/
theorem c1_groupby_refuted :
    extractGroupByCols c1Query = [] ∧
    ¬ (analyzeQueries aggregateFunctions [(c1Record, c1Tree)]).map
        (fun p => p.group_by_columns) = [[ "airline"]] := by decide

/-- Witness for `c1_end_to_end` at the source-literal iteration order. -/
theorem c1_end_to_end_witness :
    aggregateFunctions.Perm aggregateFunctions ∧
    analyzeQueries aggregateFunctions [(c1Record, c1Tree)] = [c1Pattern] :=
  ⟨List.Perm.refl aggregateFunctions,
    (c1_end_to_end aggregateFunctions (List.Perm.refl aggregateFunctions)).2.1⟩

/-- A malformed CREATE TABLE statement: the WITH clause is missing, so the
column-block regex finds no match. -/
def c2BadDDL : String := "CREATE TABLE t2 (a int)"

/-- C2 (amended): a batch with one malformed statement (e.g. missing the
WITH clause) among well-formed ones yields N Tables, not N-1 — the parser
only drops a statement whose `sqlparse.parse(...)[0]` raises (the empty
string); a missing-WITH statement still yields a Table, with an empty
column list.  It never raises and never drops a valid table. -/
theorem c2_skip_only_on_parse_failure (l : List String) (h : ∀ s ∈ l, s ≠ "") :
    (parseDDLStatements l).length = l.length ∧
    (∀ s ∈ l, ∃ t : Table, parseCreateTable s = some t) ∧
    parseCreateTable c2BadDDL = some ⟨ "", "", "t2", []⟩ := by
  have hsome : ∀ s : String, s ≠ "" → ∃ t : Table, parseCreateTable s = some t := by
    intro s hs
    unfold parseCreateTable
    rw [if_neg ?_]
    · exact ⟨_, rfl⟩
    · intro hd
      apply hs
      apply String.ext
      simpa [List.isEmpty_iff] using hd
  refine ⟨?_, fun s hs => hsome s (h s hs), by decide⟩
  induction l with
  | nil => simp [parseDDLStatements]
  | cons x xs ih =>
    obtain ⟨t, ht⟩ := hsome x (h x (List.mem_cons_self x xs))
    have ihh := ih (fun s hs => h s (List.mem_cons_of_mem x hs))
    simp [parseDDLStatements, List.filterMap_cons, ht] at ihh ⊢
    exact ihh

/-- C2, the part the code refutes: with N = 2 statements of which exactly
one is malformed (missing WITH), the parser returns 2 tables, not N-1 = 1. -/
theorem c2_counterexample :
    (parseDDLStatements [c1DDL, c2BadDDL]).length = 2 ∧
    ¬ (parseDDLStatements [c1DDL, c2BadDDL]).length = 2 - 1 := by decide

/-- Witness for `c2_skip_only_on_parse_failure` on a concrete batch. -/
theorem c2_witness :
    (∀ s ∈ ([c1DDL, c2BadDDL] : List String), s ≠ "") ∧
    (parseDDLStatements [c1DDL, c2BadDDL]).length = 2 :=
  ⟨by decide, by
    have hl := (c2_skip_only_on_parse_failure [c1DDL, c2BadDDL] (by decide)).1
    simpa using hl⟩

/-- The recommendation fields the projection bracket-indexes. -/
def recKeysPresent (rec : RecEntry) : Bool :=
  rec.rtype.isSome && rec.priority.isSome && rec.effort.isSome &&
    rec.expected_improvement.isSome && rec.description.isSome

/-- The materialized-view fields the projection bracket-indexes. -/
def mvKeysPresent (mv : MVEntry) : Bool :=
  mv.aggregations.isSome && mv.total_executions.isSome &&
    mv.potential_savings.isSome && mv.query_count.isSome

/-- The stored keys `create_analysis_report` reads with bracket indexing
(everything else — `schema_overview`, `performance_bottlenecks`,
`schema_insights.tables`/`.index_coverage`, `agent_input` — is read with a
defaulting `.get`). -/
def RequiredKeysPresent (r : RawReport) : Prop :=
  (∃ es, r.executive_summary = some es ∧ es.database_size.isSome = true ∧
    es.total_rows.isSome = true ∧ es.query_volume_per_day.isSome = true ∧
    es.critical_issues.isSome = true ∧ es.optimization_potential.isSome = true) ∧
  (∃ dbp, r.database_profile = some dbp ∧ dbp.column_distribution.isSome = true) ∧
  (∃ si, r.schema_insights = some si ∧ si.total_columns.isSome = true) ∧
  (∃ qp, r.query_patterns = some qp ∧ qp.top_aggregations.isSome = true ∧
    qp.join_frequency.isSome = true ∧
    ∃ mvs, qp.materialized_view_candidates = some mvs ∧
      ∀ mv ∈ mvs.take 3, mvKeysPresent mv = true) ∧
  (∃ recs, r.recommendations = some recs ∧ ∀ rec ∈ recs, recKeysPresent rec = true) ∧
  r.implementation_priority.isSome = true

/-- A recommendation with all read fields present renders. -/
theorem vizRecOf_ok (rec : RecEntry) (h : recKeysPresent rec = true) :
    ∃ v, vizRecOf rec = Except.ok v := by
  simp only [recKeysPresent, Bool.and_eq_true] at h
  obtain ⟨⟨⟨⟨h1, h2⟩, h3⟩, h4⟩, h5⟩ := h
  obtain ⟨a1, e1⟩ := Option.isSome_iff_exists.mp h1
  obtain ⟨a2, e2⟩ := Option.isSome_iff_exists.mp h2
  obtain ⟨a3, e3⟩ := Option.isSome_iff_exists.mp h3
  obtain ⟨a4, e4⟩ := Option.isSome_iff_exists.mp h4
  obtain ⟨a5, e5⟩ := Option.isSome_iff_exists.mp h5
  refine ⟨⟨a1, a2, a3, a4, a5⟩, ?_⟩
  simp only [vizRecOf, req, e1, e2, e3, e4, e5]
  rfl

/-- A materialized-view row with all read fields present renders. -/
theorem vizMVOf_ok (mv : MVEntry) (h : mvKeysPresent mv = true) :
    ∃ v, vizMVOf mv = Except.ok v := by
  simp only [mvKeysPresent, Bool.and_eq_true] at h
  obtain ⟨⟨⟨h1, h2⟩, h3⟩, h4⟩ := h
  obtain ⟨a1, e1⟩ := Option.isSome_iff_exists.mp h1
  obtain ⟨a2, e2⟩ := Option.isSome_iff_exists.mp h2
  obtain ⟨a3, e3⟩ := Option.isSome_iff_exists.mp h3
  obtain ⟨a4, e4⟩ := Option.isSome_iff_exists.mp h4
  refine ⟨⟨a1, a2, a3, a4⟩, ?_⟩
  simp only [vizMVOf, req, e1, e2, e3, e4]
  rfl

/-- `mapE` succeeds when every element renders. -/
theorem mapE_ok {α β : Type} (f : α → Except String β) :
    ∀ l : List α, (∀ x ∈ l, ∃ y, f x = Except.ok y) → ∃ ys, mapE f l = Except.ok ys
  | [], _ => ⟨[], rfl⟩
  | x :: xs, h => by
    obtain ⟨y, hy⟩ := h x (List.mem_cons_self x xs)
    obtain ⟨ys, hys⟩ := mapE_ok f xs (fun z hz => h z (List.mem_cons_of_mem x hz))
    refine ⟨y :: ys, ?_⟩
    simp only [mapE, hy, hys]
    rfl

/-- Success/failure discriminator of the projection. -/
def isOkE {α : Type} : Except String α → Bool
  | Except.ok _ => true
  | Except.error _ => false

/-- C3 (amended): the projection tolerates a missing `schema_overview`
(rebuilding it from `schema_insights` with empty defaults), missing
bottleneck entries and a missing `agent_input`; it returns a well-formed
visualization value whenever the bracket-indexed keys of
`RequiredKeysPresent` are present — but (see the counterexample) it raises
a `KeyError` rather than defaulting when one of those keys is absent. -/
theorem c3_defaults (r : RawReport) (h : RequiredKeysPresent r) :
    isOkE (createAnalysisReport r) = true := by
  obtain ⟨⟨es, he, e1, e2, e3, e4, e5⟩, ⟨dbp, hd, d1⟩, ⟨si, hs, s1⟩,
    ⟨qp, hq, q1, q2, mvs, hm, hmv⟩, ⟨recs, hr, hrec⟩, hip⟩ := h
  obtain ⟨x1, hx1⟩ := Option.isSome_iff_exists.mp e1
  obtain ⟨x2, hx2⟩ := Option.isSome_iff_exists.mp e2
  obtain ⟨x3, hx3⟩ := Option.isSome_iff_exists.mp e3
  obtain ⟨x4, hx4⟩ := Option.isSome_iff_exists.mp e4
  obtain ⟨x5, hx5⟩ := Option.isSome_iff_exists.mp e5
  obtain ⟨y1, hy1⟩ := Option.isSome_iff_exists.mp d1
  obtain ⟨z1, hz1⟩ := Option.isSome_iff_exists.mp s1
  obtain ⟨w1, hw1⟩ := Option.isSome_iff_exists.mp q1
  obtain ⟨w2, hw2⟩ := Option.isSome_iff_exists.mp q2
  obtain ⟨ip, hip2⟩ := Option.isSome_iff_exists.mp hip
  obtain ⟨ys, hys⟩ := mapE_ok vizRecOf recs (fun rec hr2 => vizRecOf_ok rec (hrec rec hr2))
  obtain ⟨zs, hzs⟩ := mapE_ok vizMVOf (mvs.take 3) (fun mv hm2 => vizMVOf_ok mv (hmv mv hm2))
  simp [createAnalysisReport, req, isOkE, he, hd, hs, hq, hr, hx1, hx2, hx3, hx4, hx5,
    hy1, hz1, hw1, hw2, hip2, hm, hys, hzs, bind, Except.bind, Functor.map, Except.map,
    pure, Except.pure]

/-- A legacy-shaped report: `schema_overview`, `agent_input` are absent
and the bottleneck list is empty, but all bracket-indexed keys exist. -/
def c3FullReport : RawReport :=
  { performance_bottlenecks := some []
    schema_overview := none
    schema_insights := some ⟨some [], some defaultIndexCoverage, some 3⟩
    agent_input := none
    executive_summary := some ⟨some 2, some "1,000", some 5000, some 1, some "High"⟩
    database_profile := some ⟨some [( "varchar", 2), ( "date", 1)]⟩
    query_patterns := some ⟨some [( "count", 1)], some [], some []⟩
    recommendations := some
      [⟨some "partitioning", some "high", some "medium", some "30-70%",
        some "Implement date-based partitioning"⟩]
    implementation_priority := some [ "1. Date-based partitioning"] }

/-- The same report with the `executive_summary` key removed. -/
def c3MissingExec : RawReport := { c3FullReport with executive_summary := none }

/-- C3, the part the code refutes: a stored report lacking the
`executive_summary` key makes the projection raise `KeyError`, not fall
back to an empty default. -/
theorem c3_counterexample :
    createAnalysisReport c3MissingExec = Except.error "executive_summary" := rfl

/-- The legacy-shaped report has every bracket-indexed key. -/
theorem c3_full_required : RequiredKeysPresent c3FullReport := by
  refine ⟨⟨_, rfl, rfl, rfl, rfl, rfl, rfl⟩, ⟨_, rfl, rfl⟩, ⟨_, rfl, rfl⟩,
    ⟨_, rfl, rfl, rfl, _, rfl, ?_⟩, ⟨_, rfl, ?_⟩, rfl⟩
  · intro mv hmv
    simp [c3FullReport] at hmv
  · intro rec hr
    simp [c3FullReport] at hr
    subst hr
    rfl

/-- Witness for `c3_defaults` on the legacy-shaped report. -/
theorem c3_witness :
    RequiredKeysPresent c3FullReport ∧ isOkE (createAnalysisReport c3FullReport) = true :=
  ⟨c3_full_required, c3_defaults c3FullReport c3_full_required⟩



def DescendingBy {α β : Type} [LinearOrder β] (key : α → β) (l : List α) : Prop :=
  l.Sorted (fun a b => key b ≤ key a)

theorem sortDescBy_perm {α β : Type} [LinearOrder β] (key : α → β) (l : List α) :
    (sortDescBy key l).Perm l :=
  List.perm_insertionSort _ l

theorem sortDescBy_sorted {α β : Type} [LinearOrder β] (key : α → β) (l : List α) :
    DescendingBy key (sortDescBy key l) := by
  haveI h1 : IsTotal α (fun a b => key b ≤ key a) := ⟨fun a b => le_total (key b) (key a)⟩
  haveI h2 : IsTrans α (fun a b => key b ≤ key a) := ⟨fun a b c hab hbc => le_trans hbc hab⟩
  exact List.sorted_insertionSort _ l

theorem descendingBy_map {α β γ : Type} [LinearOrder γ] (f : α → β) (ka : α → γ) (kb : β → γ)
    (hk : ∀ a, kb (f a) = ka a) {l : List α} (h : DescendingBy ka l) :
    DescendingBy kb (l.map f) := by
  refine List.Pairwise.map f (fun a b hab => ?_) h
  simpa [hk] using hab

theorem descendingBy_take {α β : Type} [LinearOrder β] (key : α → β) (n : Nat) {l : List α}
    (h : DescendingBy key l) : DescendingBy key (l.take n) :=
  h.sublist (List.take_sublist n l)



/-- C4 (amended): bottleneck detection partitions patterns into the slow
bucket (`execution_time` strictly above 30) and the high-volume bucket
(`run_quantity` strictly above 1000); each detail carries the score
`execution_time * run_quantity`; the slow details are exactly the slow
patterns sorted descending by that score; the high-volume details are the
top 5 of the bucket sorted descending by `run_quantity` (amended: the sort
and the top-5 selection use `run_quantity`, not the impact score); and the
boundary cases `run_quantity = 1000` / `execution_time = 30` are excluded. -/
theorem c4_thresholds_and_ranking (ps : List QueryPattern) :
    (∀ b ∈ identifyBottlenecks ps,
      b.btype = "slow_queries" ∨ b.btype = "high_volume_queries") ∧
    ((∃ b ∈ identifyBottlenecks ps, b.btype = "slow_queries") ↔
      ∃ q ∈ ps, 30 < q.execution_time) ∧
    ((∃ b ∈ identifyBottlenecks ps, b.btype = "high_volume_queries") ↔
      ∃ q ∈ ps, 1000 < q.run_quantity) ∧
    (∀ b ∈ identifyBottlenecks ps, b.btype = "slow_queries" →
      b.severity = "high" ∧
      b.details.Perm ((ps.filter (fun q => 30 < q.execution_time)).map mkDetail) ∧
      DescendingBy (fun d => d.score) b.details) ∧
    (∀ b ∈ identifyBottlenecks ps, b.btype = "high_volume_queries" →
      b.severity = "medium" ∧
      b.total_executions =
        some (((ps.filter (fun q => 1000 < q.run_quantity)).map (fun q => q.run_quantity)).sum) ∧
      b.details.length ≤ 5 ∧
      DescendingBy (fun d => d.run_quantity) b.details ∧
      ∃ full : List BottleneckDetail,
        full.Perm ((ps.filter (fun q => 1000 < q.run_quantity)).map mkDetail) ∧
        DescendingBy (fun d => d.run_quantity) full ∧ b.details = full.take 5) ∧
    (∀ d ∈ (identifyBottlenecks ps).flatMap (fun b => b.details),
      d.score = d.execution_time * (d.run_quantity : Rat)) ∧
    (∀ q ∈ ps, q.run_quantity = 1000 → q ∉ ps.filter (fun q => 1000 < q.run_quantity)) ∧
    (∀ q ∈ ps, q.execution_time = 30 → q ∉ ps.filter (fun q => 30 < q.execution_time)) := by
  have hslow : ∀ b ∈ identifyBottlenecks ps, b.btype = "slow_queries" →
      b.severity = "high" ∧
      b.details.Perm ((ps.filter (fun q => 30 < q.execution_time)).map mkDetail) ∧
      DescendingBy (fun d => d.score) b.details := by
    intro b hb hty
    have hb2 : b = slowBucket ps := by
      simp only [identifyBottlenecks, List.mem_append] at hb
      rcases hb with hb | hb
      · split at hb <;> simp_all
      · split at hb <;> simp_all [hvBucket]
    subst hb2
    refine ⟨rfl, ?_, ?_⟩
    · exact (sortDescBy_perm _ _).map mkDetail
    · exact descendingBy_map mkDetail _ (fun d => d.score) (fun a => rfl)
        (sortDescBy_sorted _ _)
  have hhv : ∀ b ∈ identifyBottlenecks ps, b.btype = "high_volume_queries" →
      b.severity = "medium" ∧
      b.total_executions =
        some (((ps.filter (fun q => 1000 < q.run_quantity)).map (fun q => q.run_quantity)).sum) ∧
      b.details.length ≤ 5 ∧
      DescendingBy (fun d => d.run_quantity) b.details ∧
      ∃ full : List BottleneckDetail,
        full.Perm ((ps.filter (fun q => 1000 < q.run_quantity)).map mkDetail) ∧
        DescendingBy (fun d => d.run_quantity) full ∧ b.details = full.take 5 := by
    intro b hb hty
    have hb2 : b = hvBucket ps := by
      simp only [identifyBottlenecks, List.mem_append] at hb
      rcases hb with hb | hb
      · split at hb <;> simp_all [slowBucket]
      · split at hb <;> simp_all
    subst hb2
    have hsorted : DescendingBy (fun d : BottleneckDetail => d.run_quantity)
        ((sortDescBy (fun q : QueryPattern => q.run_quantity)
          (ps.filter (fun q => 1000 < q.run_quantity))).map mkDetail) :=
      descendingBy_map mkDetail _ (fun d => d.run_quantity) (fun a => rfl)
        (sortDescBy_sorted _ _)
    refine ⟨rfl, rfl, ?_, ?_, ?_⟩
    · simpa [hvBucket] using List.length_take_le 5 _
    · exact descendingBy_take _ 5 hsorted
    · exact ⟨_, (sortDescBy_perm _ _).map mkDetail, hsorted, rfl⟩
  refine ⟨?_, ?_, ?_, hslow, hhv, ?_, ?_, ?_⟩
  · intro b hb
    simp only [identifyBottlenecks, List.mem_append] at hb
    rcases hb with hb | hb
    · split at hb <;> simp_all [slowBucket]
    · split at hb <;> simp_all [hvBucket]
  · constructor
    · rintro ⟨b, hb, hty⟩
      simp only [identifyBottlenecks, List.mem_append] at hb
      rcases hb with hb | hb
      · by_cases he : (ps.filter (fun q => 30 < q.execution_time)).isEmpty
        · simp [he] at hb
        · rw [List.isEmpty_iff] at he
          obtain ⟨q, hq⟩ := List.exists_mem_of_ne_nil _ he
          have := List.mem_filter.mp hq
          exact ⟨q, this.1, by simpa using this.2⟩
      · split at hb <;> simp_all [hvBucket]
    · rintro ⟨q, hq, hlt⟩
      have hne : ¬ (ps.filter (fun q => 30 < q.execution_time)).isEmpty := by
        rw [List.isEmpty_iff]
        intro hnil
        have : q ∈ ps.filter (fun q => 30 < q.execution_time) :=
          List.mem_filter.mpr ⟨hq, by simpa using hlt⟩
        simp [hnil] at this
      exact ⟨slowBucket ps, by simp [identifyBottlenecks, hne], rfl⟩
  · constructor
    · rintro ⟨b, hb, hty⟩
      simp only [identifyBottlenecks, List.mem_append] at hb
      rcases hb with hb | hb
      · split at hb <;> simp_all [slowBucket]
      · by_cases he : (ps.filter (fun q => 1000 < q.run_quantity)).isEmpty
        · simp [he] at hb
        · rw [List.isEmpty_iff] at he
          obtain ⟨q, hq⟩ := List.exists_mem_of_ne_nil _ he
          have := List.mem_filter.mp hq
          exact ⟨q, this.1, by simpa using this.2⟩
    · rintro ⟨q, hq, hlt⟩
      have hne : ¬ (ps.filter (fun q => 1000 < q.run_quantity)).isEmpty := by
        rw [List.isEmpty_iff]
        intro hnil
        have : q ∈ ps.filter (fun q => 1000 < q.run_quantity) :=
          List.mem_filter.mpr ⟨hq, by simpa using hlt⟩
        simp [hnil] at this
      exact ⟨hvBucket ps, by simp [identifyBottlenecks, hne], rfl⟩
  · intro d hd
    simp only [List.mem_flatMap] at hd
    obtain ⟨b, hb, hdb⟩ := hd
    simp only [identifyBottlenecks, List.mem_append] at hb
    have hmk : ∀ (l : List QueryPattern), d ∈ l.map mkDetail →
        d.score = d.execution_time * (d.run_quantity : Rat) := by
      intro l hl
      obtain ⟨q, _, rfl⟩ := List.mem_map.mp hl
      rfl
    rcases hb with hb | hb
    · have hb2 : b = slowBucket ps := by split at hb <;> simp_all
      subst hb2
      exact hmk _ hdb
    · have hb2 : b = hvBucket ps := by split at hb <;> simp_all
      subst hb2
      have : d ∈ ((sortDescBy (fun q : QueryPattern => q.run_quantity)
          (ps.filter (fun q => 1000 < q.run_quantity))).map mkDetail) :=
        List.mem_of_mem_take hdb
      obtain ⟨q, _, rfl⟩ := List.mem_map.mp this
      rfl
  · intro q hq h1000
    intro hmem
    have := (List.mem_filter.mp hmem).2
    simp [h1000] at this
  · intro q hq h30
    intro hmem
    have := (List.mem_filter.mp hmem).2
    rw [h30] at this
    simp at this



def c4P1 : QueryPattern := ⟨ "q1", "SELECT", [], [], [], [], 2000, 10⟩

def c4P2 : QueryPattern := ⟨ "q2", "SELECT", [], [], [], [], 1500, 100⟩

def c4PB : QueryPattern := ⟨ "qb", "SELECT", [], [], [], [], 1000, 5⟩

/-- C4, the part the code refutes: with two high-volume queries
(run 2000 / 10 s and run 1500 / 100 s) the high-volume details are ordered
by run quantity — scores 20000 then 150000 — hence not sorted descending
by the impact score as the claim states. -/
theorem c4_counterexample :
    hvBucket [c4P1, c4P2] ∈ identifyBottlenecks [c4P1, c4P2] ∧
    ¬ DescendingBy (fun d => d.score) (hvBucket [c4P1, c4P2]).details := by
  have hdet : (hvBucket [c4P1, c4P2]).details =
      [⟨ "q1", 10, 2000, 20000⟩, ⟨ "q2", 100, 1500, 150000⟩] := by
    norm_num [hvBucket, sortDescBy, mkDetail, c4P1, c4P2, List.insertionSort,
      List.orderedInsert, List.filter, BottleneckDetail.mk.injEq]
  constructor
  · have hne : ¬ ([c4P1, c4P2].filter (fun q => 1000 < q.run_quantity)).isEmpty = true := by
      norm_num [List.filter, c4P1, c4P2]
    simp [identifyBottlenecks, hne]
  · rw [hdet]
    intro h
    rcases List.pairwise_cons.mp h with ⟨hr, _⟩
    have h2 := hr _ (List.mem_cons_self _ _)
    norm_num at h2

/-- Witness for `c4_thresholds_and_ranking`: a query with
`run_quantity = 1000` is not high-volume. -/
theorem c4_witness :
    c4PB ∈ [c4PB] ∧ c4PB.run_quantity = 1000 ∧
      c4PB ∉ [c4PB].filter (fun q => 1000 < q.run_quantity) :=
  ⟨List.mem_singleton_self c4PB, rfl,
    (c4_thresholds_and_ranking [c4PB]).2.2.2.2.2.2.1 c4PB (List.mem_singleton_self c4PB) rfl⟩

def c5Table : Table := ⟨ "analytics", "sales", "orders", [⟨ "id", "integer"⟩]⟩

def c5Q1 : String := "SELECT * FROM orders"

def c5Q2 : String := "select count(*) from SALES.ORDERS"

def c5Q3 : String := "SELECT * FROM analytics.\"sales\".orders WHERE x = 1"

/-- C5: a table declared `analytics.sales.orders` is matched by query
references `orders`, `SALES.ORDERS` and `analytics."sales".orders`
(case-insensitive, double-quote-stripped; the normalizer also strips
backticks), and the run quantities of all three accumulate into the single
canonical bucket `sales.orders`. -/
theorem c5_name_resolution (a b c : Nat) :
    coverageUsage [c5Table] [(c5Q1, a), (c5Q2, b), (c5Q3, c)] =
      [( "sales.orders", a + b + c)] ∧
    normalizeRef (String.data "`SALES`.`Orders`") = String.data "sales.orders" := by
  have h : coverageUsage [c5Table] [(c5Q1, a), (c5Q2, b), (c5Q3, c)] =
      [( "sales.orders", 0 + a + b + c)] := rfl
  refine ⟨?_, by decide⟩
  simpa using h

/-- C6: archetype classification — `single_big_table` for exactly one
table regardless of joins; `normalized_multitable` for more than one table
with join occurrences strictly above half the query count (Python real
division, modelled in `Rat`); `denormalized_multitable` for any other
multi-table input; including the spec's two numeric examples. -/
theorem c6_archetype (t j q : Nat) :
    (t = 1 → detectSchemaArchetype t j q = "single_big_table") ∧
    (1 < t → (q : Rat) / 2 < (j : Rat) →
      detectSchemaArchetype t j q = "normalized_multitable") ∧
    (1 < t → ¬ (q : Rat) / 2 < (j : Rat) →
      detectSchemaArchetype t j q = "denormalized_multitable") ∧
    detectSchemaArchetype 2 6 10 = "normalized_multitable" ∧
    detectSchemaArchetype 2 4 10 = "denormalized_multitable" := by
  refine ⟨?_, ?_, ?_, by norm_num [detectSchemaArchetype], by norm_num [detectSchemaArchetype]⟩
  · intro h1
    simp [detectSchemaArchetype, h1]
  · intro h1 h2
    have hne : t ≠ 1 := by omega
    simp [detectSchemaArchetype, hne, h1, h2]
  · intro h1 h2
    have hne : t ≠ 1 := by omega
    simp [detectSchemaArchetype, hne, h1, h2]

/-- Witness for `c6_archetype` at the spec's two examples. -/
theorem c6_witness :
    detectSchemaArchetype 2 6 10 = "normalized_multitable" ∧
    detectSchemaArchetype 2 4 10 = "denormalized_multitable" :=
  ⟨(c6_archetype 2 6 10).2.1 (by norm_num) (by norm_num),
    (c6_archetype 2 4 10).2.2.1 (by norm_num) (by norm_num)⟩

/-- Appending a pattern to its group inserts it once into the flattened
grouping. -/
theorem addToGroup_flatten_perm (gs : List (List String × List QueryPattern))
    (key : List String) (p : QueryPattern) :
    ((addToGroup gs key p).map Prod.snd).flatten.Perm
      ((gs.map Prod.snd).flatten ++ [p]) := by
  induction gs with
  | nil => simp [addToGroup]
  | cons g rest ih =>
    obtain ⟨k, l⟩ := g
    by_cases hk : k = key
    · simp only [addToGroup, if_pos hk, List.map_cons, List.flatten_cons]
      have h1 : ([p] ++ (rest.map Prod.snd).flatten).Perm
          ((rest.map Prod.snd).flatten ++ [p]) := List.perm_append_comm
      simpa [List.append_assoc] using h1.append_left l
    · simp only [addToGroup, if_neg hk, List.map_cons, List.flatten_cons]
      simpa [List.append_assoc] using ih.append_left l

/-- `addToGroup` preserves the members-share-the-group-key invariant. -/
theorem addToGroup_key_inv (gs : List (List String × List QueryPattern))
    (key : List String) (p : QueryPattern)
    (h : ∀ g ∈ gs, ∀ x ∈ g.2, sortStrings x.aggregations = g.1)
    (hp : sortStrings p.aggregations = key) :
    ∀ g ∈ addToGroup gs key p, ∀ x ∈ g.2, sortStrings x.aggregations = g.1 := by
  induction gs with
  | nil =>
    intro g hg x hx
    simp [addToGroup] at hg
    subst hg
    simp at hx
    subst hx
    exact hp
  | cons g0 rest ih =>
    obtain ⟨k, l⟩ := g0
    by_cases hk : k = key
    · intro g hg x hx
      simp only [addToGroup, if_pos hk] at hg
      rcases List.mem_cons.mp hg with hg | hg
      · subst hg
        simp only [List.mem_append] at hx
        rcases hx with hx | hx
        · exact h ⟨k, l⟩ (List.mem_cons_self _ _) x hx
        · simp at hx
          subst hx
          simpa [hk] using hp
      · exact h g (List.mem_cons_of_mem _ hg) x hx
    · intro g hg x hx
      simp only [addToGroup, if_neg hk] at hg
      rcases List.mem_cons.mp hg with hg | hg
      · subst hg
        exact h ⟨k, l⟩ (List.mem_cons_self _ _) x hx
      · exact ih (fun g2 hg2 => h g2 (List.mem_cons_of_mem _ hg2)) g hg x hx

/-- `addToGroup` adds the key at the end exactly when it is new. -/
theorem addToGroup_keys (gs : List (List String × List QueryPattern))
    (key : List String) (p : QueryPattern) :
    (addToGroup gs key p).map Prod.fst =
      if key ∈ gs.map Prod.fst then gs.map Prod.fst
      else gs.map Prod.fst ++ [key] := by
  induction gs with
  | nil => simp [addToGroup]
  | cons g rest ih =>
    obtain ⟨k, l⟩ := g
    by_cases hk : k = key
    · simp [addToGroup, hk]
    · have hne : ¬ key = k := fun he => hk he.symm
      rcases Classical.em (key ∈ rest.map Prod.fst) with hm | hm
      · simp [addToGroup, hk, ih, hne, hm]
      · simp [addToGroup, hk, ih, hne, hm]

/-- The grouping fold inserts every processed pattern exactly once. -/
theorem groupFold_flatten_perm (l : List QueryPattern) :
    ∀ gs : List (List String × List QueryPattern),
      (((l.foldl (fun gs p => addToGroup gs (sortStrings p.aggregations) p) gs).map
        Prod.snd).flatten).Perm ((gs.map Prod.snd).flatten ++ l) := by
  induction l with
  | nil => intro gs; simp
  | cons p rest ih =>
    intro gs
    have h1 := ih (addToGroup gs (sortStrings p.aggregations) p)
    have h2 := (addToGroup_flatten_perm gs (sortStrings p.aggregations) p).append_right rest
    simp only [List.foldl_cons]
    refine h1.trans (h2.trans ?_)
    simp [List.append_assoc]

/-- The grouping fold preserves the group-key invariant. -/
theorem groupFold_key_inv (l : List QueryPattern) :
    ∀ gs : List (List String × List QueryPattern),
      (∀ g ∈ gs, ∀ x ∈ g.2, sortStrings x.aggregations = g.1) →
      ∀ g ∈ l.foldl (fun gs p => addToGroup gs (sortStrings p.aggregations) p) gs,
        ∀ x ∈ g.2, sortStrings x.aggregations = g.1 := by
  induction l with
  | nil => intro gs h; simpa using h
  | cons p rest ih =>
    intro gs h
    simp only [List.foldl_cons]
    exact ih _ (addToGroup_key_inv gs _ p h rfl)

/-- The grouping fold keeps the group keys distinct. -/
theorem groupFold_keys_nodup (l : List QueryPattern) :
    ∀ gs : List (List String × List QueryPattern),
      ((gs.map Prod.fst).Nodup) →
      ((l.foldl (fun gs p => addToGroup gs (sortStrings p.aggregations) p) gs).map
        Prod.fst).Nodup := by
  induction l with
  | nil => intro gs h; simpa using h
  | cons p rest ih =>
    intro gs h
    simp only [List.foldl_cons]
    refine ih _ ?_
    rw [addToGroup_keys]
    split
    · exact h
    · rename_i hnm
      simp [List.nodup_append, h, hnm]

/-- In an association list with distinct keys, the key determines the
entry. -/
theorem assoc_unique_of_nodup_keys {β : Type} :
    ∀ gs : List (List String × β), (gs.map Prod.fst).Nodup →
      ∀ g1 ∈ gs, ∀ g2 ∈ gs, g1.1 = g2.1 → g1 = g2 := by
  intro gs
  induction gs with
  | nil => intro _ g1 hg1; exact absurd hg1 (List.not_mem_nil g1)
  | cons g rest ih =>
    intro hnd g1 hg1 g2 hg2 heq
    rw [List.map_cons, List.nodup_cons] at hnd
    rcases List.mem_cons.mp hg1 with h1 | h1 <;> rcases List.mem_cons.mp hg2 with h2 | h2
    · rw [h1, h2]
    · exfalso
      rw [h1] at heq
      exact hnd.1 (by rw [heq]; exact List.mem_map_of_mem Prod.fst h2)
    · exfalso
      rw [h2] at heq
      exact hnd.1 (by rw [← heq]; exact List.mem_map_of_mem Prod.fst h1)
    · exact ih hnd.2 g1 h1 g2 h2 heq


/-- C7: materialized-view candidate selection considers exactly the
patterns with `run_quantity` strictly above 500; it groups them by the
sorted aggregation list (so two patterns fall in one group exactly when
their aggregation multisets agree, and the key determines the group); only
groups of at least 2 queries become candidates; the output is sorted
descending by total run quantity, keeps at most 3 entries, and labels a
candidate `high` exactly when its total executions exceed 5000, else
`medium`. -/
theorem c7_mv_candidates (ps : List QueryPattern) :
    (((groupPatterns ps).map Prod.snd).flatten).Perm
      (ps.filter (fun p => 500 < p.run_quantity)) ∧
    (∀ g ∈ groupPatterns ps, ∀ x ∈ g.2, sortStrings x.aggregations = g.1) ∧
    (∀ g ∈ groupPatterns ps, ∀ x1 ∈ g.2, ∀ x2 ∈ g.2,
      x1.aggregations.Perm x2.aggregations) ∧
    (∀ g1 ∈ groupPatterns ps, ∀ g2 ∈ groupPatterns ps, g1.1 = g2.1 → g1 = g2) ∧
    (identifyMVCandidates ps).length ≤ 3 ∧
    DescendingBy (fun c => c.total_executions) (identifyMVCandidates ps) ∧
    (∀ c ∈ identifyMVCandidates ps,
      (∃ g, g ∈ groupPatterns ps ∧ 2 ≤ g.2.length ∧ c = mkMVCandidate g) ∧
      2 ≤ c.query_count ∧
      c.potential_savings = (if 5000 < c.total_executions then "high" else "medium")) := by
  have hkey : ∀ g ∈ groupPatterns ps, ∀ x ∈ g.2, sortStrings x.aggregations = g.1 := by
    refine groupFold_key_inv _ [] ?_
    intro g hg
    exact absurd hg (List.not_mem_nil g)
  have hmemc : ∀ c ∈ identifyMVCandidates ps,
      ∃ g, g ∈ groupPatterns ps ∧ 2 ≤ g.2.length ∧ c = mkMVCandidate g := by
    intro c hc
    have h1 : c ∈ sortDescBy (fun c : MVCandidate => c.total_executions)
        (((groupPatterns ps).filter (fun g => 2 ≤ g.2.length)).map mkMVCandidate) :=
      List.mem_of_mem_take hc
    have h2 : c ∈ ((groupPatterns ps).filter (fun g => 2 ≤ g.2.length)).map mkMVCandidate :=
      (sortDescBy_perm _ _).mem_iff.mp h1
    obtain ⟨g, hg, rfl⟩ := List.mem_map.mp h2
    have hgf := List.mem_filter.mp hg
    exact ⟨g, hgf.1, by simpa using hgf.2, rfl⟩
  refine ⟨?_, hkey, ?_, ?_, ?_, ?_, ?_⟩
  · simpa using groupFold_flatten_perm (ps.filter (fun p => 500 < p.run_quantity)) []
  · intro g hg x1 h1 x2 h2
    have k1 := hkey g hg x1 h1
    have k2 := hkey g hg x2 h2
    have p1 : (sortStrings x1.aggregations).Perm x1.aggregations :=
      List.perm_insertionSort _ _
    have p2 : (sortStrings x2.aggregations).Perm x2.aggregations :=
      List.perm_insertionSort _ _
    refine p1.symm.trans ?_
    rw [k1, ← k2]
    exact p2
  · refine assoc_unique_of_nodup_keys _ (groupFold_keys_nodup _ [] (by simp))
  · exact List.length_take_le 3 _
  · exact descendingBy_take _ 3 (sortDescBy_sorted _ _)
  · intro c hc
    obtain ⟨g, hg, hlen, rfl⟩ := hmemc c hc
    exact ⟨⟨g, hg, hlen, rfl⟩, hlen, rfl⟩


def c7P1 : QueryPattern := ⟨ "a", "SELECT", [], [ "count", "sum"], [], [], 600, 1⟩

def c7P2 : QueryPattern := ⟨ "b", "SELECT", [], [ "sum", "count"], [], [], 700, 2⟩

/-- Witness for `c7_mv_candidates`: two qualifying queries with the same
aggregation set in different order share one group. -/
theorem c7_witness :
    groupPatterns [c7P1, c7P2] =
      [(⟨[ "count", "sum"], [c7P1, c7P2]⟩ : List String × List QueryPattern)] ∧
    c7P1.aggregations.Perm c7P2.aggregations := by
  have hg : groupPatterns [c7P1, c7P2] =
      [(⟨[ "count", "sum"], [c7P1, c7P2]⟩ : List String × List QueryPattern)] := rfl
  refine ⟨hg, ?_⟩
  exact (c7_mv_candidates [c7P1, c7P2]).2.2.1
    (⟨[ "count", "sum"], [c7P1, c7P2]⟩ : List String × List QueryPattern)
    (by rw [hg]; exact List.mem_singleton_self _)
    c7P1 (List.mem_cons_self _ _)
    c7P2 (List.mem_cons_of_mem _ (List.mem_singleton_self _))

/-- `bumpKey` adds its increment to the histogram total. -/
theorem sumValues_bumpKey (m : List (String × Nat)) (k : String) (v : Nat) :
    sumValues (bumpKey m k v) = sumValues m + v := by
  induction m with
  | nil => simp [bumpKey, sumValues]
  | cons kv rest ih =>
    obtain ⟨k1, v1⟩ := kv
    by_cases hk : k1 = k
    · simp [bumpKey, hk, sumValues]
      omega
    · simp only [bumpKey, if_neg hk, sumValues, List.map_cons, List.sum_cons] at ih ⊢
      omega

/-- One pattern adds `|tables_used| * run_quantity` to the histogram
total. -/
theorem sumValues_tablesFold (ts : List String) (rq : Nat) :
    ∀ m, sumValues (ts.foldl (fun m2 t => bumpKey m2 t rq) m) =
      sumValues m + ts.length * rq := by
  induction ts with
  | nil => intro m; simp
  | cons t rest ih =>
    intro m
    simp only [List.foldl_cons, List.length_cons]
    rw [ih, sumValues_bumpKey]
    ring

/-- The table-usage fold adds the weighted reference counts. -/
theorem sumValues_usageFold (ps : List QueryPattern) :
    ∀ m, sumValues (ps.foldl
        (fun m p => p.tables_used.foldl (fun m2 t => bumpKey m2 t p.run_quantity) m) m) =
      sumValues m + (ps.map (fun p => p.tables_used.length * p.run_quantity)).sum := by
  induction ps with
  | nil => intro m; simp
  | cons p rest ih =>
    intro m
    simp only [List.foldl_cons, List.map_cons, List.sum_cons]
    rw [ih, sumValues_tablesFold]
    ring

/-- Set insertion keeps the list duplicate-free. -/
theorem setInsert_nodup (l : List String) (x : String) (h : l.Nodup) :
    (setInsert l x).Nodup := by
  unfold setInsert
  split
  · exact h
  · rename_i hx
    simp [List.nodup_append, h, hx]

/-- Folding set insertions from a duplicate-free accumulator stays
duplicate-free. -/
theorem foldl_setInsert_nodup (ms : List String) :
    ∀ acc : List String, acc.Nodup → (ms.foldl setInsert acc).Nodup := by
  induction ms with
  | nil => intro acc h; simpa using h
  | cons x rest ih =>
    intro acc h
    simp only [List.foldl_cons]
    exact ih _ (setInsert_nodup acc x h)

/-- A query mentioning the same table after both FROM and JOIN. -/
def c8DupQuery : String := "SELECT a FROM t JOIN t"

/-- C8: the table-usage histogram total equals the sum over patterns of
`|tables_used| * run_quantity`; it dominates the total run quantity of the
queries referencing at least one table, with equality when every query
references exactly one table; the table extractor deduplicates (its result
is Nodup), so duplicate FROM/JOIN mentions of one table in one query count
that query's run quantity once. -/
theorem c8_table_usage_weighting (ps : List QueryPattern) :
    sumValues (mostUsedTables ps) =
      (ps.map (fun p => p.tables_used.length * p.run_quantity)).sum ∧
    ((ps.filter (fun p => ¬ p.tables_used.isEmpty)).map (fun p => p.run_quantity)).sum ≤
      sumValues (mostUsedTables ps) ∧
    ((∀ p ∈ ps, p.tables_used.length = 1) →
      sumValues (mostUsedTables ps) =
        ((ps.filter (fun p => ¬ p.tables_used.isEmpty)).map (fun p => p.run_quantity)).sum) ∧
    (∀ q : String, (extractTables q).Nodup) ∧
    (∀ r : Nat, mostUsedTables [⟨ "qd", "SELECT", [ "t"], [], [], [], r, 1⟩] =
      [( "t", r)]) ∧
    extractTables c8DupQuery = [ "t"] := by
  have h1 : sumValues (mostUsedTables ps) =
      (ps.map (fun p => p.tables_used.length * p.run_quantity)).sum := by
    simpa [mostUsedTables, sumValues] using sumValues_usageFold ps []
  have h2 : ∀ l : List QueryPattern,
      ((l.filter (fun p => ¬ p.tables_used.isEmpty)).map (fun p => p.run_quantity)).sum ≤
        (l.map (fun p => p.tables_used.length * p.run_quantity)).sum := by
    intro l
    induction l with
    | nil => simp
    | cons p rest ih =>
      by_cases hp : p.tables_used.isEmpty
      · have hfil : (p :: rest).filter (fun p => ¬ p.tables_used.isEmpty) =
            rest.filter (fun p => ¬ p.tables_used.isEmpty) := by
          simp [List.filter_cons, List.isEmpty_iff, List.isEmpty_iff.mp hp]
        rw [hfil]
        simp only [List.map_cons, List.sum_cons]
        omega
      · have hlen : 1 ≤ p.tables_used.length := by
          rw [List.isEmpty_iff] at hp
          cases hL : p.tables_used
          · exact absurd hL hp
          · simp [hL]
        have hle : p.run_quantity ≤ p.tables_used.length * p.run_quantity :=
          Nat.le_mul_of_pos_left _ (by omega)
        have hni : p.tables_used ≠ [] := by
          rw [List.isEmpty_iff] at hp
          exact hp
        have hfil : (p :: rest).filter (fun p => ¬ p.tables_used.isEmpty) =
            p :: rest.filter (fun p => ¬ p.tables_used.isEmpty) := by
          simp [List.filter_cons, List.isEmpty_iff, hni]
        rw [hfil]
        simp only [List.map_cons, List.sum_cons]
        omega
  have h3 : ∀ l : List QueryPattern, (∀ p ∈ l, p.tables_used.length = 1) →
      sumValues (mostUsedTables l) =
        ((l.filter (fun p => ¬ p.tables_used.isEmpty)).map (fun p => p.run_quantity)).sum := by
    intro l hl
    have h1l : sumValues (mostUsedTables l) =
        (l.map (fun p => p.tables_used.length * p.run_quantity)).sum := by
      simpa [mostUsedTables, sumValues] using sumValues_usageFold l []
    rw [h1l]
    clear h1l
    induction l with
    | nil => simp
    | cons p rest ih =>
      have hp1 : p.tables_used.length = 1 := hl p (List.mem_cons_self _ _)
      have hne : ¬ p.tables_used.isEmpty := by
        rw [List.isEmpty_iff]
        intro hnil
        rw [hnil] at hp1
        simp at hp1
      have hni : p.tables_used ≠ [] := by
        rw [List.isEmpty_iff] at hne
        exact hne
      have hfil : (p :: rest).filter (fun p => ¬ p.tables_used.isEmpty) =
          p :: rest.filter (fun p => ¬ p.tables_used.isEmpty) := by
        simp [List.filter_cons, List.isEmpty_iff, hni]
      rw [hfil]
      simp only [List.map_cons, List.sum_cons]
      rw [hp1, one_mul, ih (fun p2 h2 => hl p2 (List.mem_cons_of_mem _ h2))]
  exact ⟨h1, h1 ▸ h2 ps, h3 ps, fun q => foldl_setInsert_nodup _ [] List.nodup_nil,
    fun r => rfl, by decide⟩


def c8P : QueryPattern := ⟨ "w", "SELECT", [ "t"], [], [], [], 7, 1⟩

/-- Witness for `c8_table_usage_weighting` at a one-table query. -/
theorem c8_witness :
    (∀ p ∈ [c8P], p.tables_used.length = 1) ∧
    sumValues (mostUsedTables [c8P]) =
      (([c8P].filter (fun p => ¬ p.tables_used.isEmpty)).map
        (fun p => p.run_quantity)).sum :=
  ⟨by decide, (c8_table_usage_weighting [c8P]).2.2.1 (by decide)⟩

/-- The aggregate-function vocabulary in a different set-iteration order
(first two entries swapped). -/
def c9Order2 : List String :=
  [ "sum", "count", "avg", "min", "max", "stddev", "variance",
    "count_distinct", "percentile", "median"]

/-- A query using two aggregate functions. -/
def c9Query : String := "SELECT COUNT(a), SUM(b) FROM t"

/-- C9, the part the code refutes: the extracted aggregations *list*
follows the iteration order of the aggregate-function set, so two runs
whose set iteration orders differ (as happens across Python processes with
different string-hash seeds) produce different outputs on equal input. -/
theorem c9_order_dependence_counterexample :
    c9Order2.Perm aggregateFunctions ∧
    extractAggregations aggregateFunctions c9Query = [ "count", "sum"] ∧
    extractAggregations c9Order2 c9Query = [ "sum", "count"] ∧
    extractAggregations aggregateFunctions c9Query ≠ extractAggregations c9Order2 c9Query := by
  refine ⟨List.Perm.swap _ _ _, by decide, by decide, by decide⟩

/-- C9 (amended): extraction is a pure function of the query and the set
iteration order — for a fixed order repeated runs agree — and the
*multiset* of extracted aggregations is independent of the order; only the
list order (hence byte-level serialisation) depends on it. -/
theorem c9_deterministic_up_to_set_order (o1 o2 : List String) (q : String)
    (h : o1.Perm o2) :
    (extractAggregations o1 q).Perm (extractAggregations o2 q) ∧
    (∀ f : String, f ∈ extractAggregations o1 q ↔ f ∈ extractAggregations o2 q) := by
  have hp : (extractAggregations o1 q).Perm (extractAggregations o2 q) := by
    unfold extractAggregations
    exact h.filter _
  exact ⟨hp, fun f => hp.mem_iff⟩

/-- Witness for `c9_deterministic_up_to_set_order` at the two concrete
orders. -/
theorem c9_witness :
    aggregateFunctions.Perm c9Order2 ∧
    (extractAggregations aggregateFunctions c9Query).Perm
      (extractAggregations c9Order2 c9Query) :=
  ⟨(List.Perm.swap _ _ _).symm,
    (c9_deterministic_up_to_set_order aggregateFunctions c9Order2 c9Query
      ((List.Perm.swap _ _ _).symm)).1⟩

/-- C10: `executive_summary.critical_issues` counts the severity-high
bottleneck entries; only the slow-query bucket is severity high, so the
count is 1 exactly when some query has `execution_time` strictly above 30
and 0 otherwise — never more than 1. -/
theorem c10_critical_issues (ps : List QueryPattern) :
    criticalIssues ps ≤ 1 ∧
    criticalIssues ps = (if ∃ q ∈ ps, 30 < q.execution_time then 1 else 0) := by
  by_cases hs : (ps.filter (fun q => 30 < q.execution_time)).isEmpty
  · have hno : ¬ ∃ q ∈ ps, 30 < q.execution_time := by
      rw [List.isEmpty_iff] at hs
      rintro ⟨q, hq, hlt⟩
      have : q ∈ ps.filter (fun q => 30 < q.execution_time) :=
        List.mem_filter.mpr ⟨hq, by simpa using hlt⟩
      simp [hs] at this
    by_cases hh : (ps.filter (fun q => 1000 < q.run_quantity)).isEmpty
    · simp [criticalIssues, identifyBottlenecks, hs, hh, hno]
    · simp [criticalIssues, identifyBottlenecks, hs, hh, hno, hvBucket, List.filter_cons]
  · have hyes : ∃ q ∈ ps, 30 < q.execution_time := by
      rw [List.isEmpty_iff] at hs
      obtain ⟨q, hq⟩ := List.exists_mem_of_ne_nil _ hs
      have := List.mem_filter.mp hq
      exact ⟨q, this.1, by simpa using this.2⟩
    by_cases hh : (ps.filter (fun q => 1000 < q.run_quantity)).isEmpty
    · simp [criticalIssues, identifyBottlenecks, hs, hh, hyes, slowBucket, List.filter_cons]
    · simp [criticalIssues, identifyBottlenecks, hs, hh, hyes, slowBucket, hvBucket,
        List.filter_cons]

end DTL
